import Mathlib

/-!
Verification development for the EGG-Chain proof-of-work node.

The development shallowly embeds the chain-state engine
(`crates/egg-chain/src/state.rs`), the chain store indices
(`crates/egg-db/src/store.rs`), the block validation helpers
(`crates/egg-chain/src/block_builder.rs`, `crates/egg-crypto`), and the
peer protocol state machine (`crates/egg-net/src/peer.rs`).

Modelling conventions:

* `Hash256` is an opaque 32-byte value totally ordered by lexicographic
  byte compare.  For fixed-width byte strings this order coincides with
  the numeric order of the big-endian value, so hashes are modelled as
  `Nat` and `hash_lt` as `<` on `Nat`.
* The BLAKE3-like hash primitive is an external collaborator of the
  repository (spec sections 1 and 6: it is consumed through its abstract
  contract only).  It is modelled as an explicit context `HashCtx`
  carrying the domain-separated derivations actually used by the code
  (`hash_header`, `tx_id_from_payload`, `merkle_parent`); theorems
  quantify over the context and concrete runs instantiate it.
* The key-value store never fails in memory and decoding stored records
  always succeeds on records the engine itself wrote, so the store is
  modelled by its logical contents (total functions from keys).
* Rust's `&mut self` methods mutate state even when they return `Err`,
  so every stateful operation returns `Except ChainErr α × ChainState`:
  the state component is always meaningful.
* The `while` loops of `reorg_canonical` and the BFS of
  `connect_descendants_from` have no structural termination measure (on
  a malformed store the source loops diverge); they are modelled with
  explicit fuel, a `ChainErr.fuelExhausted` result marking the
  executions on which the source would keep looping.
-/

namespace EggChain

/-- `egg_types::BlockHeader`: parent hash, height, timestamp, nonce,
merkle root and PoW difficulty bits. -/
structure BlockHeader where
  parent : Nat
  height : Nat
  timestamp_utc : Int
  nonce : Nat
  merkle_root : Nat
  pow_difficulty_bits : Nat
deriving DecidableEq

/-- `egg_types::Transaction`: id and opaque payload bytes. -/
structure Transaction where
  id : Nat
  payload : List Nat
deriving DecidableEq

/-- `egg_types::Block`: header plus ordered transactions. -/
structure Block where
  header : BlockHeader
  txs : List Transaction
deriving DecidableEq

/-- `egg_db::store::ChainTip`: the single authoritative tip pointer. -/
structure ChainTip where
  height : Nat
  hash : Nat
deriving DecidableEq

/-- `egg_db::store::ChainMeta`: set-once identity record. -/
structure ChainMeta where
  chain_id : Nat
  genesis_id : Nat
  chainspec_hash : Nat
deriving DecidableEq

/-- `egg_db::store::BlockMeta`: shadow `(parent, height)` index over a
stored header. -/
structure BlockMeta where
  parent : Nat
  height : Nat
deriving DecidableEq

/-- Abstract contract of the hash primitive consumed by the engine
(spec section 6): the domain-separated derivations used by the code. -/
structure HashCtx where
  headerId : BlockHeader → Nat
  txIdFromPayload : List Nat → Nat
  merkleParentHash : Nat → Nat → Nat

/-- Bit length of `n`, by structural recursion on a fuel of 256 binary
digits, enough for every representable `Hash256` value. -/
def bitLenAux : Nat → Nat → Nat
  | 0, _ => 0
  | fuel + 1, n => if n = 0 then 0 else bitLenAux fuel (n / 2) + 1

/-- `egg_crypto::leading_zero_bits` on the 32-byte big-endian value:
for `h < 2^256` this is `256` minus the bit length of `h`. -/
def leadingZeroBits (h : Nat) : Nat := 256 - bitLenAux 256 h

/-- `egg_chain::pow_valid`: the header id has at least
`pow_difficulty_bits` leading zero bits. -/
def pow_valid (C : HashCtx) (h : BlockHeader) : Bool :=
  h.pow_difficulty_bits ≤ leadingZeroBits (C.headerId h)

/-- One combining level of `egg_crypto::merkle::merkle_root_txids`:
pair up the layer, duplicating the odd last leaf. -/
def merkleLevel (C : HashCtx) : List Nat → List Nat
  | [] => []
  | [x] => [C.merkleParentHash x x]
  | x :: y :: rest => C.merkleParentHash x y :: merkleLevel C rest

/-- The combining loop of `merkle_root_txids`, with fuel bounding the
number of levels (the source halves the layer each iteration). -/
def merkleLoop (C : HashCtx) : Nat → List Nat → Nat
  | _, [] => 0
  | _, [x] => x
  | 0, x :: _ => x
  | fuel + 1, l => merkleLoop C fuel (merkleLevel C l)

/-- `egg_crypto::merkle::merkle_root_txids`: zero hash on the empty
list, else iterated pairwise combination. -/
def merkle_root_txids (C : HashCtx) (txids : List Nat) : Nat :=
  if txids.isEmpty then 0 else merkleLoop C txids.length txids

/-- `egg_chain::block_builder::BlockBuildError`. -/
inductive BlockBuildErr where
  | invalidTxId (index : Nat) (expected got : Nat)
  | merkleMismatch (expected got : Nat)
deriving DecidableEq

/-- `egg_crypto::validate_tx_id`. -/
def validate_tx_id (C : HashCtx) (tx : Transaction) : Bool :=
  tx.id = C.txIdFromPayload tx.payload

/-- The indexed tx-id scan of
`block_builder::compute_merkle_root_from_txs`. -/
def scanTxIds (C : HashCtx) (i : Nat) : List Transaction → Except BlockBuildErr Unit
  | [] => .ok ()
  | tx :: rest =>
      if validate_tx_id C tx then scanTxIds C (i + 1) rest
      else .error (.invalidTxId i (C.txIdFromPayload tx.payload) tx.id)

/-- `block_builder::compute_merkle_root_from_txs`: validate every tx id
and return the merkle root of the ids. -/
def compute_merkle_root_from_txs (C : HashCtx) (txs : List Transaction) :
    Except BlockBuildErr Nat :=
  match scanTxIds C 0 txs with
  | .error e => .error e
  | .ok () => .ok (merkle_root_txids C (txs.map Transaction.id))

/-- `block_builder::verify_block_merkle`. -/
def verify_block_merkle (C : HashCtx) (b : Block) : Except BlockBuildErr Unit :=
  match compute_merkle_root_from_txs C b.txs with
  | .error e => .error e
  | .ok expected =>
      if b.header.merkle_root ≠ expected then
        .error (.merkleMismatch expected b.header.merkle_root)
      else .ok ()

/-! ## Chain store (`egg_db::store::DbChainStore`), by logical contents -/

/-- The logical contents of the chain store's key namespaces. -/
structure Store where
  headers : Nat → Option BlockHeader
  blocks : Nat → Option Block
  bmeta : Nat → Option BlockMeta
  children : Nat → List Nat
  canon : Nat → Option Nat
  tip : Option ChainTip
  meta : Option ChainMeta

namespace Store

def put_header (s : Store) (id : Nat) (h : BlockHeader) : Store :=
  { s with headers := fun x => if x = id then some h else s.headers x }

def has_header (s : Store) (id : Nat) : Bool := (s.headers id).isSome

def put_block (s : Store) (id : Nat) (b : Block) : Store :=
  { s with blocks := fun x => if x = id then some b else s.blocks x }

def has_block (s : Store) (id : Nat) : Bool := (s.blocks id).isSome

def put_block_meta (s : Store) (id : Nat) (m : BlockMeta) : Store :=
  { s with bmeta := fun x => if x = id then some m else s.bmeta x }

/-- `add_child` is duplicate-suppressed (idempotent append). -/
def add_child (s : Store) (parent child : Nat) : Store :=
  if (s.children parent).contains child then s
  else
    { s with
      children := fun x =>
        if x = parent then s.children parent ++ [child] else s.children x }

def set_canon_hash (s : Store) (height hash : Nat) : Store :=
  { s with canon := fun x => if x = height then some hash else s.canon x }

def set_tip (s : Store) (t : ChainTip) : Store := { s with tip := some t }

def set_meta (s : Store) (m : ChainMeta) : Store := { s with meta := some m }

end Store

/-- The `egg_chain::state::ChainStateError` variants reachable in the
embedded operations, plus `fuelExhausted` marking executions on which
the source's unbounded loops would diverge. -/
inductive ChainErr where
  | blockBuild (e : BlockBuildErr)
  | invalidPow
  | heightNotParentPlusOne (parent_height child_height : Nat)
  | genesisIdMismatch (expected got : Nat)
  | missingHeader (id : Nat)
  | missingBlock (id : Nat)
  | missingBlockMeta (id : Nat)
  | headerMismatch (id : Nat)
  | fuelExhausted
deriving DecidableEq

/-- `egg_chain::state::IngestOutcome`. -/
inductive IngestOutcome where
  | alreadyKnown
  | storedOrphan
  | storedConnected
  | newTip
deriving DecidableEq

/-- `egg_chain::state::HeaderIngestOutcome`. -/
inductive HeaderIngestOutcome where
  | alreadyKnown
  | storedOrphan
  | storedConnected
deriving DecidableEq

/-- `egg_chain::state::ChainState`: cached tip and meta plus the store. -/
structure ChainState where
  tip : ChainTip
  meta : ChainMeta
  store : Store

/-- `ChainState::hash_lt`: `a.0 < b.0`, lexicographic byte compare,
which on fixed-width 32-byte values is numeric order. -/
def hash_lt (a b : Nat) : Bool := a < b

/-- `ChainState::ensure_block_meta_from_header`: return the stored
block meta, writing it from the header when absent. -/
def ensure_block_meta_from_header (s : ChainState) (id : Nat) (hdr : BlockHeader) :
    BlockMeta × ChainState :=
  match s.store.bmeta id with
  | some m => (m, s)
  | none =>
      let m : BlockMeta := ⟨hdr.parent, hdr.height⟩
      (m, { s with store := s.store.put_block_meta id m })

/-- `ChainState::must_block_meta` (read-only). -/
def must_block_meta (s : ChainState) (id : Nat) : Except ChainErr BlockMeta :=
  match s.store.bmeta id with
  | some m => .ok m
  | none => .error (.missingBlockMeta id)

/-- The `while ha > hb` (or `while hb > ha`) climbing loops of
`reorg_canonical`: follow `steps` parent links from `a`. -/
def climbSteps (s : ChainState) : Nat → Nat → Except ChainErr Nat
  | a, 0 => .ok a
  | a, steps + 1 =>
      match must_block_meta s a with
      | .error e => .error e
      | .ok m => climbSteps s m.parent steps

/-- The `while a != b` loop of `reorg_canonical`: step both sides one
parent at a time until they meet, returning the meeting hash and the
(saturating) height counter at the meet.  `fuel` bounds the iteration
count; the source loop has no bound of its own. -/
def meetLoop (s : ChainState) : Nat → Nat → Nat → Nat → Except ChainErr (Nat × Nat)
  | 0, a, b, ha => if a = b then .ok (a, ha) else .error .fuelExhausted
  | fuel + 1, a, b, ha =>
      if a = b then .ok (a, ha)
      else
        match must_block_meta s a with
        | .error e => .error e
        | .ok ma =>
            match must_block_meta s b with
            | .error e => .error e
            | .ok mb => meetLoop s fuel ma.parent mb.parent (ha - 1)

/-- The fork-point computation of `reorg_canonical` (its first three
loops): climb the higher branch to equal height, then step both
branches until they meet; result is the ancestor height counter. -/
def findForkHeight (s : ChainState) (old_tip new_tip : ChainTip) :
    Except ChainErr Nat :=
  let ha := new_tip.height
  let hb := old_tip.height
  match climbSteps s new_tip.hash (ha - hb) with
  | .error e => .error e
  | .ok a =>
      match climbSteps s old_tip.hash (hb - ha) with
      | .error e => .error e
      | .ok b =>
          match meetLoop s (min ha hb + 2) a b (min ha hb) with
          | .error e => .error e
          | .ok (_, h) => .ok h

/-- The path-collection loop of `reorg_canonical`: walk from the new
tip down to the ancestor height, collecting `(height, hash)` pairs
(new-tip first, as the source pushes before reversing). -/
def collectPath (s : ChainState) (ancestor_height : Nat) :
    Nat → Nat → Except ChainErr (List (Nat × Nat))
  | _, 0 => .error .fuelExhausted
  | cur, fuel + 1 =>
      match must_block_meta s cur with
      | .error e => .error e
      | .ok m =>
          if m.height = ancestor_height then .ok []
          else
            match collectPath s ancestor_height m.parent fuel with
            | .error e => .error e
            | .ok rest => .ok ((m.height, cur) :: rest)

/-- `ChainState::reorg_canonical`: find the fork point of the old and
new tips, then overwrite the canonical height index along the new
branch above the fork point. -/
def reorg_canonical (s : ChainState) (old_tip new_tip : ChainTip) :
    Except ChainErr Unit × ChainState :=
  match findForkHeight s old_tip new_tip with
  | .error e => (.error e, s)
  | .ok ancestor_height =>
      match collectPath s ancestor_height new_tip.hash (new_tip.height + 2) with
      | .error e => (.error e, s)
      | .ok path =>
          -- the source reverses before writing; writes to distinct
          -- heights commute, and we keep the collection order
          (.ok (), { s with
            store := path.foldl (fun st p => st.set_canon_hash p.1 p.2) s.store })

/-- The fork-choice test of `ChainState::maybe_set_tip`. -/
def tipBetter (tip : ChainTip) (candidate_hash candidate_height : Nat) : Bool :=
  if candidate_height > tip.height then true
  else if candidate_height = tip.height then hash_lt candidate_hash tip.hash
  else false

/-- `ChainState::maybe_set_tip`: adopt the candidate iff it is better
under fork-choice; on adoption persist the tip (store and memory)
first, then reorg the canonical index.  A reorg error propagates with
the tip already moved, as in the source. -/
def maybe_set_tip (s : ChainState) (candidate_hash candidate_height : Nat) :
    Except ChainErr Bool × ChainState :=
  if tipBetter s.tip candidate_hash candidate_height then
    let old := s.tip
    let new_tip : ChainTip := ⟨candidate_height, candidate_hash⟩
    let s' : ChainState := { s with tip := new_tip, store := s.store.set_tip new_tip }
    match reorg_canonical s' old new_tip with
    | (.ok _, s'') => (.ok true, s'')
    | (.error e, s'') => (.error e, s'')
  else (.ok false, s)

/-- `ChainState::try_connect_child`: connect `child` under `parent` if
both header and block are stored, the parent matches, and the height is
`parent.height + 1`; then apply fork-choice to the child. -/
def try_connect_child (s : ChainState) (parent child : Nat) :
    Except ChainErr Bool × ChainState :=
  if ¬ (s.store.has_header child ∧ s.store.has_block child) then (.ok false, s)
  else
    match s.store.headers child with
    | none => (.ok false, s)
    | some child_hdr =>
        if child_hdr.parent ≠ parent then (.ok false, s)
        else
          match s.store.headers parent with
          | none => (.error (.missingHeader parent), s)
          | some parent_hdr =>
              let (parent_meta, s) := ensure_block_meta_from_header s parent parent_hdr
              let (child_meta, s) := ensure_block_meta_from_header s child child_hdr
              let expect_h := parent_meta.height + 1
              if child_meta.height ≠ expect_h ∨ child_hdr.height ≠ expect_h then
                (.error (.heightNotParentPlusOne parent_meta.height child_hdr.height), s)
              else
                match maybe_set_tip s child child_meta.height with
                | (.ok _, s') => (.ok true, s')
                | (.error e, s') => (.error e, s')

/-- The inner `for c in children` loop of `connect_descendants_from`:
try each child in order, keeping those that connected (the source
pushes them onto the back of the queue as it goes). -/
def connectChildren (s : ChainState) (p : Nat) :
    List Nat → Except ChainErr (List Nat) × ChainState
  | [] => (.ok [], s)
  | c :: cs =>
      match try_connect_child s p c with
      | (.error e, s') => (.error e, s')
      | (.ok connected, s') =>
          match connectChildren s' p cs with
          | (.error e, s'') => (.error e, s'')
          | (.ok conns, s'') =>
              (.ok (if connected then c :: conns else conns), s'')

/-- The BFS queue loop of `ChainState::connect_descendants_from`;
`fuel` bounds the number of popped nodes. -/
def connectQueue (s : ChainState) : Nat → List Nat →
    Except ChainErr Unit × ChainState
  | _, [] => (.ok (), s)
  | 0, _ :: _ => (.error .fuelExhausted, s)
  | fuel + 1, p :: rest =>
      match connectChildren s p (s.store.children p) with
      | (.error e, s') => (.error e, s')
      | (.ok connected, s') => connectQueue s' fuel (rest ++ connected)

/-- `ChainState::connect_descendants_from`: BFS over the children
index starting at `root`. -/
def connect_descendants_from (s : ChainState) (fuel : Nat) (root : Nat) :
    Except ChainErr Unit × ChainState :=
  connectQueue s fuel [root]

/-- The parent-presence / height-check / fork-choice / BFS tail of
`ChainState::ingest_block`, which the source spells out verbatim twice
(once in the header-already-stored branch with `p = block.header.parent`
bound, once in the header-absent branch); factored here over the
post-persistence state `s`. -/
def connectPhase (fuel : Nat) (s : ChainState) (hdr : BlockHeader) (id : Nat) :
    Except ChainErr (Nat × IngestOutcome) × ChainState :=
  if ¬ s.store.has_header hdr.parent then (.ok (id, .storedOrphan), s)
  else
    match s.store.headers hdr.parent with
    | none => (.error (.missingHeader hdr.parent), s)
    | some parent_hdr =>
        let (parent_meta, s) := ensure_block_meta_from_header s hdr.parent parent_hdr
        let expect_h := parent_meta.height + 1
        if hdr.height ≠ expect_h then
          (.error (.heightNotParentPlusOne parent_meta.height hdr.height), s)
        else
          match maybe_set_tip s id hdr.height with
          | (.error e, s') => (.error e, s')
          | (.ok tip_changed_here, s') =>
              match connect_descendants_from s' fuel id with
              | (.error e, s'') => (.error e, s'')
              | (.ok _, s'') =>
                  (.ok (id, if tip_changed_here then .newTip else .storedConnected), s'')

/-- `ChainState::ingest_block` (with BFS fuel). -/
def ingest_block (C : HashCtx) (fuel : Nat) (s : ChainState) (block : Block) :
    Except ChainErr (Nat × IngestOutcome) × ChainState :=
  match verify_block_merkle C block with
  | .error e => (.error (.blockBuild e), s)
  | .ok () =>
  if ¬ pow_valid C block.header then (.error .invalidPow, s)
  else
    let id := C.headerId block.header
    if block.header.height = 0 then
      if id ≠ s.meta.genesis_id then
        (.error (.genesisIdMismatch s.meta.genesis_id id), s)
      else
        -- genesis already exists from open_or_init; treat as known
        (.ok (id, .alreadyKnown), s)
    else if s.store.has_header id then
      if s.store.has_block id then (.ok (id, .alreadyKnown), s)
      else
        match s.store.headers id with
        | none => (.error (.missingHeader id), s)
        | some stored_hdr =>
            if stored_hdr ≠ block.header then (.error (.headerMismatch id), s)
            else
              let s := { s with store := s.store.put_block id block }
              let (_, s) := ensure_block_meta_from_header s id block.header
              let p := block.header.parent
              let s :=
                if ¬ (s.store.children p).contains id then
                  { s with store := s.store.add_child p id }
                else s
              connectPhase fuel s block.header id
    else
      let s := { s with store := s.store.put_header id block.header }
      let s := { s with store := s.store.put_block id block }
      let s := { s with store :=
        s.store.put_block_meta id ⟨block.header.parent, block.header.height⟩ }
      let s := { s with store := s.store.add_child block.header.parent id }
      connectPhase fuel s block.header id

/-- `ChainState::ingest_header`. -/
def ingest_header (C : HashCtx) (s : ChainState) (header : BlockHeader) :
    Except ChainErr (Nat × HeaderIngestOutcome) × ChainState :=
  if ¬ pow_valid C header then (.error .invalidPow, s)
  else
    let id := C.headerId header
    if header.height = 0 then
      if id ≠ s.meta.genesis_id then
        (.error (.genesisIdMismatch s.meta.genesis_id id), s)
      else (.ok (id, .alreadyKnown), s)
    else if s.store.has_header id then (.ok (id, .alreadyKnown), s)
    else
      let s := { s with store := s.store.put_header id header }
      let s := { s with store :=
        s.store.put_block_meta id ⟨header.parent, header.height⟩ }
      let s := { s with store := s.store.add_child header.parent id }
      if ¬ s.store.has_header header.parent then (.ok (id, .storedOrphan), s)
      else
        match s.store.headers header.parent with
        | none => (.error (.missingHeader header.parent), s)
        | some ph =>
            let (pm, s) := ensure_block_meta_from_header s header.parent ph
            let expect_h := pm.height + 1
            if header.height ≠ expect_h then
              (.error (.heightNotParentPlusOne pm.height header.height), s)
            else (.ok (id, .storedConnected), s)

/-- The empty store. -/
def Store.empty : Store :=
  ⟨fun _ => none, fun _ => none, fun _ => none, fun _ => [], fun _ => none, none, none⟩

/-- The state written by the genesis branch of
`ChainState::open_or_init` on an empty store: meta, genesis header,
block, block-meta, `canon[0]` and tip. -/
def genesisState (C : HashCtx) (gh : BlockHeader) (chain_id chainspec_hash : Nat) :
    ChainState :=
  let gid := C.headerId gh
  let meta : ChainMeta := ⟨chain_id, gid, chainspec_hash⟩
  let blk : Block := ⟨gh, []⟩
  let st := Store.empty.set_meta meta
  let st := st.put_header gid gh
  let st := st.put_block gid blk
  let st := st.put_block_meta gid ⟨gh.parent, gh.height⟩
  let st := st.set_canon_hash 0 gid
  let st := st.set_tip ⟨0, gid⟩
  { tip := ⟨0, gid⟩, meta := meta, store := st }

end EggChain

namespace EggNet

open EggChain (BlockHeader Block HashCtx)

/-! ## Peer protocol state machine (`egg_net::peer`)

`Instant` values are modelled as `Nat` nanoseconds;
`Duration::as_secs` floors to whole seconds.  `i32` arithmetic is
modelled on `Int` with the source's explicit saturations and the
`steps as i32` cast made explicit. -/

def i32Min : Int := -2147483648
def i32Max : Int := 2147483647

/-- Rust `i32::saturating_add`. -/
def satAddI32 (a b : Int) : Int := min (max (a + b) i32Min) i32Max

/-- Rust `i32::saturating_mul`. -/
def satMulI32 (a b : Int) : Int := min (max (a * b) i32Min) i32Max

/-- Rust `u64 as i32`: truncate to 32 bits, then reinterpret signed. -/
def u64AsI32 (n : Nat) : Int :=
  let r := n % 4294967296
  if r < 2147483648 then (r : Int) else (r : Int) - 4294967296

/-- `egg_net::peer` constants. -/
def MAX_NOTFOUND_PER_ID : Nat := 2
def MAX_DISTINCT_NOTFOUND_IDS : Nat := 16
def PENALTY_BAN_THRESHOLD : Int := 100
def PENALTY_DECAY_EVERY_SECS : Nat := 10
def PENALTY_DECAY_STEP : Int := 10
def PENALTY_UNSOLICITED_REPLY : Int := 55
def PENALTY_REPLY_WITHOUT_KNOWN_HEADER : Int := 65
def PENALTY_BLOCK_ID_MISMATCH : Int := 70
def PENALTY_BLOCK_NOTFOUND : Int := 5
def PENALTY_TOO_MANY_NOTFOUND_PER_ID : Int := 25
def PENALTY_TOO_MANY_DISTINCT_NOTFOUND : Int := 40
def PENALTY_TIMEOUT : Int := 8

inductive Role where
  | inbound
  | outbound
deriving DecidableEq

inductive HandshakeState where
  | initial
  | sentHello
  | receivedHello
  | ready
deriving DecidableEq

/-- `egg_net::protocol::Tip`. -/
structure Tip where
  height : Nat
  hash : Nat
deriving DecidableEq

structure LocalInfo where
  chain_id : Nat
  genesis_id : Nat
  tip : Tip
  node_nonce : Nat
  agent : String
deriving DecidableEq

structure RemoteInfo where
  chain_id : Nat
  genesis_id : Nat
  tip : Tip
  node_nonce : Nat
  agent : String
deriving DecidableEq

/-- `egg_net::protocol::Message`. -/
inductive Message where
  | hello (chain_id : Nat) (genesis_id : Nat) (tip : Tip) (node_nonce : Nat) (agent : String)
  | helloAck (chain_id : Nat) (genesis_id : Nat) (tip : Tip) (node_nonce : Nat) (agent : String)
  | getHeaders (start : Nat) (max : Nat)
  | headers (headers : List BlockHeader)
  | getBlock (id : Nat)
  | blockFound (id : Nat) (block : Block)
  | blockNotFound (id : Nat)
  | ping (nonce : Nat)
  | pong (nonce : Nat)
deriving DecidableEq

/-- `HashSet`-style insert on a duplicate-free list. -/
def insertId (l : List Nat) (x : Nat) : List Nat :=
  if l.contains x then l else l ++ [x]

/-- `HashSet`-style remove. -/
def removeId (l : List Nat) (x : Nat) : List Nat := l.filter (· ≠ x)

/-- `HashMap<Hash256, u8>` lookup with default 0 (`entry(id).or_insert(0)`). -/
def notfoundCount (l : List (Nat × Nat)) (x : Nat) : Nat :=
  match l.lookup x with
  | some n => n
  | none => 0

/-- Store a notfound counter value. -/
def setCount (l : List (Nat × Nat)) (x : Nat) (n : Nat) : List (Nat × Nat) :=
  (x, n) :: l.filter (fun p => p.1 ≠ x)

/-- Rust `u8::saturating_add(1)`. -/
def satSuccU8 (n : Nat) : Nat := min (n + 1) 255

/-- `egg_net::peer::PeerMachine`. -/
structure PeerMachine where
  role : Role
  hs : HandshakeState
  localInfo : LocalInfo
  remote : Option RemoteInfo
  sync_enabled : Bool
  sync_cursor_start : Nat
  sync_batch_max : Nat
  banned : Option String
  known_header_ids : List Nat
  inflight_blocks : List Nat
  notfound_by_id : List (Nat × Nat)
  notfound_distinct_ids : List Nat
  penalty_score : Int
  penalty_last_decay : Nat

namespace PeerMachine

/-- `PeerMachine::new` (the `Instant::now()` of the constructor is an
explicit argument). -/
def new (role : Role) (localInfo : LocalInfo) (now : Nat) : PeerMachine :=
  { role := role
    hs := .initial
    localInfo := localInfo
    remote := none
    sync_enabled := false
    sync_cursor_start := localInfo.tip.hash
    sync_batch_max := 2000
    banned := none
    known_header_ids := [localInfo.tip.hash]
    inflight_blocks := []
    notfound_by_id := []
    notfound_distinct_ids := []
    penalty_score := 0
    penalty_last_decay := now }

def is_banned (m : PeerMachine) : Bool := m.banned.isSome

/-- `PeerMachine::ban`: first reason sticks. -/
def ban (m : PeerMachine) (reason : String) : PeerMachine :=
  if m.banned.isNone then { m with banned := some reason } else m

/-- `PeerMachine::apply_decay` (lazy decay).  `checked_duration_since`
returns `None` when `now` precedes `penalty_last_decay`. -/
def apply_decay (m : PeerMachine) (now : Nat) : PeerMachine :=
  if now < m.penalty_last_decay then { m with penalty_last_decay := now }
  else
    let elapsedSecs := (now - m.penalty_last_decay) / 1000000000
    let steps := elapsedSecs / PENALTY_DECAY_EVERY_SECS
    if steps = 0 then m
    else
      let dec := satMulI32 (u64AsI32 steps) PENALTY_DECAY_STEP
      { m with penalty_score := max (m.penalty_score - dec) 0
               penalty_last_decay := now }

/-- `PeerMachine::add_penalty`. -/
def add_penalty (m : PeerMachine) (now : Nat) (points : Int) (why : String) :
    PeerMachine :=
  if m.is_banned then m
  else
    let m := m.apply_decay now
    let m := { m with penalty_score := satAddI32 m.penalty_score points }
    if PENALTY_BAN_THRESHOLD ≤ m.penalty_score then
      m.ban ("penalty threshold exceeded: score=" ++ toString m.penalty_score
        ++ " reason=" ++ why)
    else m

/-- `PeerMachine::note_timeout` with the clock explicit. -/
def note_timeout_at (m : PeerMachine) (now : Nat) : PeerMachine :=
  m.add_penalty now PENALTY_TIMEOUT "timeout"

/-- `PeerMachine::start`. -/
def start (m : PeerMachine) : List Message × PeerMachine :=
  if m.is_banned then ([], m)
  else if m.role = .outbound ∧ m.hs = .initial then
    ([Message.hello m.localInfo.chain_id m.localInfo.genesis_id m.localInfo.tip
        m.localInfo.node_nonce m.localInfo.agent],
     { m with hs := .sentHello })
  else ([], m)

def make_get_headers (m : PeerMachine) (start : Nat) : Message :=
  Message.getHeaders start m.sync_batch_max

/-- `PeerMachine::request_block`. -/
def request_block (m : PeerMachine) (id : Nat) : Message × PeerMachine :=
  (Message.getBlock id, { m with inflight_blocks := insertId m.inflight_blocks id })

def mark_remote (m : PeerMachine) (chain_id genesis_id : Nat) (tip : Tip)
    (node_nonce : Nat) (agent : String) : PeerMachine :=
  { m with remote := some ⟨chain_id, genesis_id, tip, node_nonce, agent⟩ }

def maybe_sync_kickoff (m : PeerMachine) : List Message :=
  if m.sync_enabled ∧ m.hs = .ready then [m.make_get_headers m.sync_cursor_start]
  else []

/-- `PeerMachine::hardening_on_block_reply`: unsolicited-reply and
unknown-header penalties; returns whether the reply is acceptable. -/
def hardening_on_block_reply (m : PeerMachine) (now : Nat) (id : Nat) :
    Bool × PeerMachine :=
  if m.inflight_blocks.contains id then
    let m := { m with inflight_blocks := removeId m.inflight_blocks id }
    if ¬ m.known_header_ids.contains id then
      (false, m.add_penalty now PENALTY_REPLY_WITHOUT_KNOWN_HEADER
        "block reply without known header")
    else (true, m)
  else
    (false, m.add_penalty now PENALTY_UNSOLICITED_REPLY "unsolicited block reply")

/-- `PeerMachine::hardening_on_notfound`. -/
def hardening_on_notfound (m : PeerMachine) (now : Nat) (id : Nat) : PeerMachine :=
  let m := m.add_penalty now PENALTY_BLOCK_NOTFOUND "BlockNotFound"
  let count := satSuccU8 (notfoundCount m.notfound_by_id id)
  let m := { m with notfound_by_id := setCount m.notfound_by_id id count }
  let m :=
    if count > MAX_NOTFOUND_PER_ID then
      m.add_penalty now PENALTY_TOO_MANY_NOTFOUND_PER_ID "too many BlockNotFound per id"
    else m
  if count = 1 then
    let prev := m.notfound_distinct_ids.length
    let m := { m with notfound_distinct_ids := insertId m.notfound_distinct_ids id }
    if prev ≤ MAX_DISTINCT_NOTFOUND_IDS ∧
        m.notfound_distinct_ids.length > MAX_DISTINCT_NOTFOUND_IDS then
      m.add_penalty now PENALTY_TOO_MANY_DISTINCT_NOTFOUND
        "too many distinct BlockNotFound ids"
    else m
  else m

/-- `PeerMachine::hardening_on_found`. -/
def hardening_on_found (m : PeerMachine) (id : Nat) : PeerMachine :=
  { m with notfound_by_id := m.notfound_by_id.filter (fun p => p.1 ≠ id)
           notfound_distinct_ids := removeId m.notfound_distinct_ids id }

/-- `PeerMachine::on_message_at` (the pure core of `on_message`). -/
def on_message_at (C : HashCtx) (m : PeerMachine) (msg : Message) (now : Nat) :
    List Message × PeerMachine :=
  if m.is_banned then ([], m)
  else
    let m := m.apply_decay now
    match msg with
    | .hello chain_id genesis_id tip node_nonce agent =>
        let m := m.mark_remote chain_id genesis_id tip node_nonce agent
        let m :=
          match m.hs with
          | .initial => { m with hs := .receivedHello }
          | _ => m
        let ack := Message.helloAck m.localInfo.chain_id m.localInfo.genesis_id
          m.localInfo.tip m.localInfo.node_nonce m.localInfo.agent
        let m := { m with hs := .ready }
        (ack :: m.maybe_sync_kickoff, m)
    | .helloAck chain_id genesis_id tip node_nonce agent =>
        let m := m.mark_remote chain_id genesis_id tip node_nonce agent
        let m := { m with hs := .ready }
        (m.maybe_sync_kickoff, m)
    | .getHeaders _ _ => ([], m)
    | .headers hs =>
        let m := hs.foldl
          (fun m h => { m with known_header_ids := insertId m.known_header_ids (C.headerId h) }) m
        if ¬ m.sync_enabled then ([], m)
        else if hs.isEmpty then ([], m)
        else
          match hs.getLast? with
          | none => ([], m)
          | some last =>
              let m := { m with sync_cursor_start := C.headerId last }
              ([m.make_get_headers m.sync_cursor_start], m)
    | .getBlock _ => ([], m)
    | .blockFound id block =>
        match m.hardening_on_block_reply now id with
        | (false, m) => ([], m)
        | (true, m) =>
            let hid := C.headerId block.header
            if hid ≠ id then
              ([], m.add_penalty now PENALTY_BLOCK_ID_MISMATCH "BlockFound id mismatch")
            else ([], m.hardening_on_found id)
    | .blockNotFound id =>
        match m.hardening_on_block_reply now id with
        | (false, m) => ([], m)
        | (true, m) => ([], m.hardening_on_notfound now id)
    | .ping nonce => ([Message.pong nonce], m)
    | .pong _ => ([], m)

end PeerMachine

end EggNet

namespace EggChain

/-! ## Frame lemmas for the canonical reorg -/

theorem foldl_set_canon_headers (l : List (Nat × Nat)) (st : Store) :
    (l.foldl (fun st p => st.set_canon_hash p.1 p.2) st).headers = st.headers := by
  induction l generalizing st with
  | nil => rfl
  | cons p t ih => rw [List.foldl_cons, ih]; rfl

theorem foldl_set_canon_blocks (l : List (Nat × Nat)) (st : Store) :
    (l.foldl (fun st p => st.set_canon_hash p.1 p.2) st).blocks = st.blocks := by
  induction l generalizing st with
  | nil => rfl
  | cons p t ih => rw [List.foldl_cons, ih]; rfl

theorem foldl_set_canon_bmeta (l : List (Nat × Nat)) (st : Store) :
    (l.foldl (fun st p => st.set_canon_hash p.1 p.2) st).bmeta = st.bmeta := by
  induction l generalizing st with
  | nil => rfl
  | cons p t ih => rw [List.foldl_cons, ih]; rfl

theorem foldl_set_canon_children (l : List (Nat × Nat)) (st : Store) :
    (l.foldl (fun st p => st.set_canon_hash p.1 p.2) st).children = st.children := by
  induction l generalizing st with
  | nil => rfl
  | cons p t ih => rw [List.foldl_cons, ih]; rfl

theorem foldl_set_canon_tip (l : List (Nat × Nat)) (st : Store) :
    (l.foldl (fun st p => st.set_canon_hash p.1 p.2) st).tip = st.tip := by
  induction l generalizing st with
  | nil => rfl
  | cons p t ih => rw [List.foldl_cons, ih]; rfl

theorem foldl_set_canon_meta (l : List (Nat × Nat)) (st : Store) :
    (l.foldl (fun st p => st.set_canon_hash p.1 p.2) st).meta = st.meta := by
  induction l generalizing st with
  | nil => rfl
  | cons p t ih => rw [List.foldl_cons, ih]; rfl

/-- `reorg_canonical` touches only the `canon` index: the cached tip,
and every store namespace except `canon:`, are untouched, on success
and on error alike. -/
theorem reorg_canonical_frame (s : ChainState) (old_tip new_tip : ChainTip) :
    (reorg_canonical s old_tip new_tip).2.tip = s.tip ∧
    (reorg_canonical s old_tip new_tip).2.meta = s.meta ∧
    (reorg_canonical s old_tip new_tip).2.store.headers = s.store.headers ∧
    (reorg_canonical s old_tip new_tip).2.store.blocks = s.store.blocks ∧
    (reorg_canonical s old_tip new_tip).2.store.bmeta = s.store.bmeta ∧
    (reorg_canonical s old_tip new_tip).2.store.children = s.store.children ∧
    (reorg_canonical s old_tip new_tip).2.store.tip = s.store.tip ∧
    (reorg_canonical s old_tip new_tip).2.store.meta = s.store.meta := by
  unfold reorg_canonical
  cases hf : findForkHeight s old_tip new_tip with
  | error e => exact ⟨rfl, rfl, rfl, rfl, rfl, rfl, rfl, rfl⟩
  | ok aH =>
    dsimp only
    cases hc : collectPath s aH new_tip.hash (new_tip.height + 2) with
    | error e => exact ⟨rfl, rfl, rfl, rfl, rfl, rfl, rfl, rfl⟩
    | ok path =>
      dsimp only
      exact ⟨rfl, rfl, foldl_set_canon_headers path s.store,
        foldl_set_canon_blocks path s.store, foldl_set_canon_bmeta path s.store,
        foldl_set_canon_children path s.store, foldl_set_canon_tip path s.store,
        foldl_set_canon_meta path s.store⟩

/-- The fork-choice condition as a proposition. -/
def ForkBetter (tip : ChainTip) (candidate_hash candidate_height : Nat) : Prop :=
  tip.height < candidate_height ∨
    (candidate_height = tip.height ∧ candidate_hash < tip.hash)

instance (tip : ChainTip) (ch cht : Nat) : Decidable (ForkBetter tip ch cht) := by
  unfold ForkBetter; infer_instance

theorem tipBetter_iff (tip : ChainTip) (ch cht : Nat) :
    tipBetter tip ch cht = true ↔ ForkBetter tip ch cht := by
  unfold tipBetter ForkBetter hash_lt
  by_cases h1 : cht > tip.height
  · simp only [if_pos h1, true_iff]
    exact Or.inl h1
  · by_cases h2 : cht = tip.height
    · simp only [if_neg h1, if_pos h2, decide_eq_true_eq]
      constructor
      · exact fun h => Or.inr ⟨h2, h⟩
      · rintro (h | ⟨_, h⟩)
        · omega
        · exact h
    · simp only [if_neg h1, if_neg h2, Bool.false_eq_true, false_iff]
      rintro (h | ⟨h, _⟩)
      · omega
      · exact h2 h

/-- C1 (fork-choice rule of `maybe_set_tip`): the candidate is adopted
as the new tip iff its height exceeds the current tip height, or the
heights are equal and the candidate hash is lexicographically smaller;
in all other cases the call returns `Ok(false)` and the whole state —
tip and store — is retained unchanged. -/
theorem C1_maybe_set_tip_fork_choice (s : ChainState) (ch cht : Nat) :
    ((maybe_set_tip s ch cht).2.tip =
      if ForkBetter s.tip ch cht then (⟨cht, ch⟩ : ChainTip) else s.tip) ∧
    ((maybe_set_tip s ch cht).2.store.tip =
      if ForkBetter s.tip ch cht then some (⟨cht, ch⟩ : ChainTip) else s.store.tip) ∧
    (¬ ForkBetter s.tip ch cht →
      (maybe_set_tip s ch cht) = (.ok false, s)) := by
  by_cases hb : ForkBetter s.tip ch cht
  · have ht : tipBetter s.tip ch cht = true := (tipBetter_iff s.tip ch cht).mpr hb
    simp only [maybe_set_tip, ht, if_true, if_pos hb]
    have hfr := reorg_canonical_frame
      { s with tip := ⟨cht, ch⟩, store := s.store.set_tip ⟨cht, ch⟩ } s.tip ⟨cht, ch⟩
    generalize hre : reorg_canonical
        { s with tip := ⟨cht, ch⟩, store := s.store.set_tip ⟨cht, ch⟩ } s.tip ⟨cht, ch⟩ = rc
    rw [hre] at hfr
    obtain ⟨r, s''⟩ := rc
    cases r with
    | ok u => exact ⟨hfr.1, by rw [hfr.2.2.2.2.2.2.1]; rfl, fun hn => absurd hb hn⟩
    | error e => exact ⟨hfr.1, by rw [hfr.2.2.2.2.2.2.1]; rfl, fun hn => absurd hb hn⟩
  · have ht : tipBetter s.tip ch cht = false := by
      cases h : tipBetter s.tip ch cht
      · rfl
      · exact absurd ((tipBetter_iff s.tip ch cht).mp h) hb
    simp [maybe_set_tip, ht, hb]

end EggChain

deriving instance DecidableEq for Except

namespace EggChain

/-! ## Store field lemmas -/

theorem Store.put_header_blocks (s : Store) (id : Nat) (h : BlockHeader) :
    (s.put_header id h).blocks = s.blocks := rfl

theorem Store.put_block_headers (s : Store) (id : Nat) (b : Block) :
    (s.put_block id b).headers = s.headers := rfl

theorem Store.put_block_meta_headers (s : Store) (id : Nat) (m : BlockMeta) :
    (s.put_block_meta id m).headers = s.headers := rfl

theorem Store.put_block_meta_blocks (s : Store) (id : Nat) (m : BlockMeta) :
    (s.put_block_meta id m).blocks = s.blocks := rfl

theorem Store.add_child_headers (s : Store) (p c : Nat) :
    (s.add_child p c).headers = s.headers := by
  unfold add_child; split <;> rfl

theorem Store.add_child_blocks (s : Store) (p c : Nat) :
    (s.add_child p c).blocks = s.blocks := by
  unfold add_child; split <;> rfl

theorem Store.set_tip_headers (s : Store) (t : ChainTip) :
    (s.set_tip t).headers = s.headers := rfl

theorem Store.set_tip_blocks (s : Store) (t : ChainTip) :
    (s.set_tip t).blocks = s.blocks := rfl

theorem Store.set_canon_headers (s : Store) (h x : Nat) :
    (s.set_canon_hash h x).headers = s.headers := rfl

theorem Store.set_canon_blocks (s : Store) (h x : Nat) :
    (s.set_canon_hash h x).blocks = s.blocks := rfl

/-! ## Error classification: which errors precede persistence

`ingest_block` raises exactly four error kinds before writing anything
for the ingested block; the connect pipeline (fork-choice, reorg, BFS)
never produces one of those kinds. -/

/-- The `ingest_block` validation errors raised before any store write
for the ingested block. -/
def isPrePersistenceErr : ChainErr → Bool
  | .blockBuild _ => true
  | .invalidPow => true
  | .genesisIdMismatch _ _ => true
  | .headerMismatch _ => true
  | _ => false

theorem must_block_meta_err {s : ChainState} {id : Nat} {e : ChainErr}
    (h : must_block_meta s id = .error e) : e = .missingBlockMeta id := by
  unfold must_block_meta at h
  cases hm : s.store.bmeta id <;> rw [hm] at h
  · cases h; rfl
  · cases h

theorem climbSteps_err {s : ChainState} {e : ChainErr} :
    ∀ {steps a : Nat}, climbSteps s a steps = .error e →
      isPrePersistenceErr e = false := by
  intro steps
  induction steps with
  | zero => intro a h; cases h
  | succ n ih =>
    intro a h
    unfold climbSteps at h
    cases hm : must_block_meta s a <;> rw [hm] at h
    · cases h; rw [must_block_meta_err hm]; rfl
    · exact ih h

theorem meetLoop_err {s : ChainState} {e : ChainErr} :
    ∀ {fuel a b ha : Nat}, meetLoop s fuel a b ha = .error e →
      isPrePersistenceErr e = false := by
  intro fuel
  induction fuel with
  | zero =>
    intro a b ha h
    unfold meetLoop at h
    split at h
    · cases h
    · cases h; rfl
  | succ n ih =>
    intro a b ha h
    unfold meetLoop at h
    split at h
    · cases h
    · cases hma : must_block_meta s a <;> rw [hma] at h
      · cases h; rw [must_block_meta_err hma]; rfl
      · cases hmb : must_block_meta s b <;> rw [hmb] at h
        · cases h; rw [must_block_meta_err hmb]; rfl
        · exact ih h

theorem findForkHeight_err {s : ChainState} {o n : ChainTip} {e : ChainErr}
    (h : findForkHeight s o n = .error e) : isPrePersistenceErr e = false := by
  unfold findForkHeight at h
  dsimp only at h
  cases h1 : climbSteps s n.hash (n.height - o.height) with
  | error e1 => rw [h1] at h; cases h; exact climbSteps_err h1
  | ok a =>
    rw [h1] at h
    cases h2 : climbSteps s o.hash (o.height - n.height) with
    | error e2 => rw [h2] at h; cases h; exact climbSteps_err h2
    | ok b =>
      rw [h2] at h
      dsimp only at h
      cases h3 : meetLoop s (min n.height o.height + 2) a b (min n.height o.height) with
      | error e3 => rw [h3] at h; cases h; exact meetLoop_err h3
      | ok pr =>
        obtain ⟨x, y⟩ := pr
        rw [h3] at h
        cases h

theorem collectPath_err {s : ChainState} {aH : Nat} {e : ChainErr} :
    ∀ {fuel cur : Nat}, collectPath s aH cur fuel = .error e →
      isPrePersistenceErr e = false := by
  intro fuel
  induction fuel with
  | zero => intro cur h; cases h; rfl
  | succ n ih =>
    intro cur h
    unfold collectPath at h
    cases hm : must_block_meta s cur <;> rw [hm] at h
    · cases h; rw [must_block_meta_err hm]; rfl
    · dsimp only at h
      split at h
      · cases h
      · cases hc : collectPath s aH _ n <;> rw [hc] at h
        · cases h; exact ih hc
        · cases h

theorem reorg_canonical_err {s : ChainState} {o n : ChainTip} {e : ChainErr}
    (h : (reorg_canonical s o n).1 = .error e) : isPrePersistenceErr e = false := by
  unfold reorg_canonical at h
  cases hf : findForkHeight s o n <;> rw [hf] at h
  · cases h; exact findForkHeight_err hf
  · dsimp only at h
    cases hc : collectPath s _ n.hash (n.height + 2) <;> rw [hc] at h
    · cases h; exact collectPath_err hc
    · cases h

theorem maybe_set_tip_err {s : ChainState} {ch cht : Nat} {e : ChainErr}
    (h : (maybe_set_tip s ch cht).1 = .error e) : isPrePersistenceErr e = false := by
  unfold maybe_set_tip at h
  split at h
  · dsimp only at h
    generalize hre : reorg_canonical
      { s with tip := ⟨cht, ch⟩, store := s.store.set_tip ⟨cht, ch⟩ } s.tip ⟨cht, ch⟩ = rc at h
    obtain ⟨r, s''⟩ := rc
    cases r with
    | ok u => cases h
    | error e' =>
      dsimp only at h
      cases h
      exact reorg_canonical_err (by rw [hre])
  · cases h

theorem try_connect_child_err {s : ChainState} {p c : Nat} {e : ChainErr}
    (h : (try_connect_child s p c).1 = .error e) : isPrePersistenceErr e = false := by
  unfold try_connect_child at h
  split at h
  · cases h
  · cases hh : s.store.headers c <;> rw [hh] at h
    · cases h
    · dsimp only at h
      split at h
      · cases h
      · cases hp : s.store.headers p <;> rw [hp] at h
        · cases h; rfl
        · dsimp only at h
          split at h
          · cases h; rfl
          · generalize hms : maybe_set_tip
              (ensure_block_meta_from_header
                (ensure_block_meta_from_header s p _).2 c _).2 c
              (ensure_block_meta_from_header
                (ensure_block_meta_from_header s p _).2 c _).1.height = ms at h
            obtain ⟨r, s''⟩ := ms
            cases r with
            | ok u => dsimp only at h; cases h
            | error e' =>
              dsimp only at h
              cases h
              exact maybe_set_tip_err (by rw [hms])

theorem connectChildren_err {p : Nat} {e : ChainErr} :
    ∀ {cs : List Nat} {s : ChainState}, (connectChildren s p cs).1 = .error e →
      isPrePersistenceErr e = false := by
  intro cs
  induction cs with
  | nil => intro s h; cases h
  | cons c rest ih =>
    intro s h
    unfold connectChildren at h
    generalize htc : try_connect_child s p c = tc at h
    obtain ⟨r, s'⟩ := tc
    cases r with
    | error e' =>
      dsimp only at h
      cases h
      exact try_connect_child_err (by rw [htc])
    | ok connected =>
      dsimp only at h
      generalize hcc : connectChildren s' p rest = cc at h
      obtain ⟨r2, s''⟩ := cc
      cases r2 with
      | error e2 => dsimp only at h; cases h; exact ih (by rw [hcc])
      | ok conns => dsimp only at h; cases h

theorem connectQueue_err {e : ChainErr} :
    ∀ {fuel : Nat} {q : List Nat} {s : ChainState},
      (connectQueue s fuel q).1 = .error e → isPrePersistenceErr e = false := by
  intro fuel
  induction fuel with
  | zero =>
    intro q s h
    cases q with
    | nil => cases h
    | cons p rest => cases h; rfl
  | succ n ih =>
    intro q s h
    cases q with
    | nil => cases h
    | cons p rest =>
      unfold connectQueue at h
      generalize hcc : connectChildren s p (s.store.children p) = cc at h
      obtain ⟨r, s'⟩ := cc
      cases r with
      | error e' => dsimp only at h; cases h; exact connectChildren_err (by rw [hcc])
      | ok connected => exact ih h

theorem connectPhase_err {fuel : Nat} {t : ChainState} {hdr : BlockHeader}
    {id : Nat} {e : ChainErr}
    (h : (connectPhase fuel t hdr id).1 = .error e) : isPrePersistenceErr e = false := by
  unfold connectPhase at h
  split at h
  · cases h
  · cases hph : t.store.headers hdr.parent with
    | none => rw [hph] at h; cases h; rfl
    | some parent_hdr =>
      rw [hph] at h
      dsimp only at h
      split at h
      · cases h; rfl
      · generalize hms : maybe_set_tip
          (ensure_block_meta_from_header t hdr.parent parent_hdr).2 id hdr.height = ms at h
        obtain ⟨r, s'⟩ := ms
        cases r with
        | error e' =>
          dsimp only at h
          cases h
          exact maybe_set_tip_err (by rw [hms])
        | ok tc =>
          dsimp only at h
          generalize hcq : connect_descendants_from s' fuel id = cq at h
          obtain ⟨r2, s''⟩ := cq
          cases r2 with
          | error e2 =>
            dsimp only at h
            cases h
            have h2 : (connect_descendants_from s' fuel id).1 = .error e := by rw [hcq]
            exact connectQueue_err h2
          | ok u => dsimp only at h; cases h

/-- C2 as amended: the validation errors that `ingest_block` raises
before persisting anything — merkle / tx-id failure, invalid PoW,
genesis-id mismatch, header mismatch — leave the whole state (tip and
every store namespace) unchanged.  (The `HeightNotParentPlusOne` error
is excluded: the source raises it only after the block has been
persisted; see the counterexample.) -/
theorem C2_ingest_block_prevalidation_frame (C : HashCtx) (fuel : Nat)
    (s : ChainState) (b : Block) (e : ChainErr)
    (herr : (ingest_block C fuel s b).1 = .error e)
    (hpre : isPrePersistenceErr e = true) :
    (ingest_block C fuel s b).2 = s := by
  unfold ingest_block at herr ⊢
  cases hv : verify_block_merkle C b with
  | error e' => rfl
  | ok u =>
    rw [hv] at herr
    cases u
    dsimp only at herr ⊢
    by_cases hp : pow_valid C b.header = true
    · rw [if_neg (not_not_intro hp)] at herr ⊢
      by_cases h0 : b.header.height = 0
      · rw [if_pos h0] at herr ⊢
        by_cases hg : C.headerId b.header ≠ s.meta.genesis_id
        · rw [if_pos hg]
        · rw [if_neg hg] at herr; cases herr
      · rw [if_neg h0] at herr ⊢
        by_cases hh : s.store.has_header (C.headerId b.header) = true
        · rw [if_pos hh] at herr ⊢
          by_cases hb2 : s.store.has_block (C.headerId b.header) = true
          · rw [if_pos hb2] at herr; cases herr
          · rw [if_neg hb2] at herr ⊢
            cases hsh : s.store.headers (C.headerId b.header) with
            | none => rw [hsh] at herr
            | some stored_hdr =>
              rw [hsh] at herr
              dsimp only at herr ⊢
              by_cases hne : stored_hdr ≠ b.header
              · rw [if_pos hne]
              · rw [if_neg hne] at herr
                have hfalse := connectPhase_err herr
                rw [hpre] at hfalse
                cases hfalse
        · rw [if_neg hh] at herr
          have hfalse := connectPhase_err herr
          rw [hpre] at hfalse
          cases hfalse
    · rw [if_pos hp]

theorem Store.put_header_tip (s : Store) (id : Nat) (h : BlockHeader) :
    (s.put_header id h).tip = s.tip := rfl

theorem Store.put_block_tip (s : Store) (id : Nat) (b : Block) :
    (s.put_block id b).tip = s.tip := rfl

theorem Store.put_block_meta_tip (s : Store) (id : Nat) (m : BlockMeta) :
    (s.put_block_meta id m).tip = s.tip := rfl

theorem Store.add_child_tip (s : Store) (p c : Nat) :
    (s.add_child p c).tip = s.tip := by
  unfold add_child; split <;> rfl

theorem ensure_block_meta_tip (s : ChainState) (id : Nat) (hdr : BlockHeader) :
    (ensure_block_meta_from_header s id hdr).2.tip = s.tip := by
  unfold ensure_block_meta_from_header
  cases s.store.bmeta id <;> rfl

theorem ensure_block_meta_store_tip (s : ChainState) (id : Nat) (hdr : BlockHeader) :
    (ensure_block_meta_from_header s id hdr).2.store.tip = s.store.tip := by
  unfold ensure_block_meta_from_header
  cases s.store.bmeta id <;> rfl

theorem ingest_header_tip_frame (C : HashCtx) (s : ChainState) (h : BlockHeader) :
    (ingest_header C s h).2.tip = s.tip ∧
    (ingest_header C s h).2.store.tip = s.store.tip := by
  constructor <;>
    (unfold ingest_header
     dsimp only
     repeat' split) <;>
    simp only [ensure_block_meta_tip, ensure_block_meta_store_tip,
      Store.add_child_tip, Store.put_block_meta_tip, Store.put_header_tip]

/-- C6: `ingest_header` never moves the tip, whatever its outcome
(`AlreadyKnown`, `StoredOrphan`, `StoredConnected` or an error): both
the in-memory tip and the persisted tip record are identical before
and after the call. -/
theorem C6_ingest_header_never_moves_tip (C : HashCtx) (s : ChainState) (h : BlockHeader) :
    (ingest_header C s h).2.tip = s.tip ∧
    (ingest_header C s h).2.store.tip = s.store.tip :=
  ingest_header_tip_frame C s h

/-! ## Headers and blocks are never touched by the connect pipeline -/

theorem ensure_block_meta_headers (s : ChainState) (id : Nat) (hdr : BlockHeader) :
    (ensure_block_meta_from_header s id hdr).2.store.headers = s.store.headers := by
  unfold ensure_block_meta_from_header
  cases s.store.bmeta id <;> rfl

theorem ensure_block_meta_blocks (s : ChainState) (id : Nat) (hdr : BlockHeader) :
    (ensure_block_meta_from_header s id hdr).2.store.blocks = s.store.blocks := by
  unfold ensure_block_meta_from_header
  cases s.store.bmeta id <;> rfl

theorem maybe_set_tip_hb_frame (s : ChainState) (ch cht : Nat) :
    (maybe_set_tip s ch cht).2.store.headers = s.store.headers ∧
    (maybe_set_tip s ch cht).2.store.blocks = s.store.blocks := by
  unfold maybe_set_tip
  split
  · dsimp only
    have hfr := reorg_canonical_frame
      { s with tip := ⟨cht, ch⟩, store := s.store.set_tip ⟨cht, ch⟩ } s.tip ⟨cht, ch⟩
    generalize hre : reorg_canonical
        { s with tip := ⟨cht, ch⟩, store := s.store.set_tip ⟨cht, ch⟩ } s.tip ⟨cht, ch⟩ = rc
    rw [hre] at hfr
    obtain ⟨r, s''⟩ := rc
    cases r with
    | ok u => exact ⟨hfr.2.2.1, hfr.2.2.2.1⟩
    | error e => exact ⟨hfr.2.2.1, hfr.2.2.2.1⟩
  · exact ⟨rfl, rfl⟩

theorem try_connect_child_hb_frame (s : ChainState) (p c : Nat) :
    (try_connect_child s p c).2.store.headers = s.store.headers ∧
    (try_connect_child s p c).2.store.blocks = s.store.blocks := by
  unfold try_connect_child
  split
  · exact ⟨rfl, rfl⟩
  · cases hh : s.store.headers c with
    | none => exact ⟨rfl, rfl⟩
    | some child_hdr =>
      dsimp only
      split
      · exact ⟨rfl, rfl⟩
      · cases hp : s.store.headers p with
        | none => exact ⟨rfl, rfl⟩
        | some parent_hdr =>
          dsimp only
          split
          · constructor <;>
              simp only [ensure_block_meta_headers, ensure_block_meta_blocks]
          · have hms := maybe_set_tip_hb_frame
              (ensure_block_meta_from_header
                (ensure_block_meta_from_header s p parent_hdr).2 c child_hdr).2 c
              (ensure_block_meta_from_header
                (ensure_block_meta_from_header s p parent_hdr).2 c child_hdr).1.height
            generalize hm : maybe_set_tip
              (ensure_block_meta_from_header
                (ensure_block_meta_from_header s p parent_hdr).2 c child_hdr).2 c
              (ensure_block_meta_from_header
                (ensure_block_meta_from_header s p parent_hdr).2 c child_hdr).1.height = ms
            rw [hm] at hms
            obtain ⟨r, s'⟩ := ms
            have hens : (ensure_block_meta_from_header
                (ensure_block_meta_from_header s p parent_hdr).2 c child_hdr).2.store.headers
                  = s.store.headers ∧
                (ensure_block_meta_from_header
                (ensure_block_meta_from_header s p parent_hdr).2 c child_hdr).2.store.blocks
                  = s.store.blocks := by
              constructor <;>
                simp only [ensure_block_meta_headers, ensure_block_meta_blocks]
            cases r with
            | ok u =>
              exact ⟨hms.1.trans hens.1, hms.2.trans hens.2⟩
            | error e =>
              exact ⟨hms.1.trans hens.1, hms.2.trans hens.2⟩

theorem connectChildren_hb_frame (p : Nat) :
    ∀ (cs : List Nat) (s : ChainState),
      (connectChildren s p cs).2.store.headers = s.store.headers ∧
      (connectChildren s p cs).2.store.blocks = s.store.blocks := by
  intro cs
  induction cs with
  | nil => intro s; exact ⟨rfl, rfl⟩
  | cons c rest ih =>
    intro s
    unfold connectChildren
    have htc := try_connect_child_hb_frame s p c
    generalize hm : try_connect_child s p c = tc
    rw [hm] at htc
    obtain ⟨r, s'⟩ := tc
    cases r with
    | error e => exact htc
    | ok connected =>
      dsimp only
      have hcc := ih s'
      generalize hc : connectChildren s' p rest = cc
      rw [hc] at hcc
      obtain ⟨r2, s''⟩ := cc
      cases r2 with
      | error e2 => exact ⟨hcc.1.trans htc.1, hcc.2.trans htc.2⟩
      | ok conns => exact ⟨hcc.1.trans htc.1, hcc.2.trans htc.2⟩

theorem connectQueue_hb_frame :
    ∀ (fuel : Nat) (q : List Nat) (s : ChainState),
      (connectQueue s fuel q).2.store.headers = s.store.headers ∧
      (connectQueue s fuel q).2.store.blocks = s.store.blocks := by
  intro fuel
  induction fuel with
  | zero =>
    intro q s
    cases q with
    | nil => exact ⟨rfl, rfl⟩
    | cons p rest => exact ⟨rfl, rfl⟩
  | succ n ih =>
    intro q s
    cases q with
    | nil => exact ⟨rfl, rfl⟩
    | cons p rest =>
      unfold connectQueue
      have hcc := connectChildren_hb_frame p (s.store.children p) s
      generalize hc : connectChildren s p (s.store.children p) = cc
      rw [hc] at hcc
      obtain ⟨r, s'⟩ := cc
      cases r with
      | error e => exact hcc
      | ok connected =>
        have hq := ih (rest ++ connected) s'
        exact ⟨hq.1.trans hcc.1, hq.2.trans hcc.2⟩

theorem connectPhase_hb_frame (fuel : Nat) (t : ChainState) (hdr : BlockHeader) (id : Nat) :
    (connectPhase fuel t hdr id).2.store.headers = t.store.headers ∧
    (connectPhase fuel t hdr id).2.store.blocks = t.store.blocks := by
  unfold connectPhase
  split
  · exact ⟨rfl, rfl⟩
  · cases hph : t.store.headers hdr.parent with
    | none => exact ⟨rfl, rfl⟩
    | some parent_hdr =>
      dsimp only
      split
      · constructor <;> simp only [ensure_block_meta_headers, ensure_block_meta_blocks]
      · have hms := maybe_set_tip_hb_frame
          (ensure_block_meta_from_header t hdr.parent parent_hdr).2 id hdr.height
        generalize hm : maybe_set_tip
          (ensure_block_meta_from_header t hdr.parent parent_hdr).2 id hdr.height = ms
        rw [hm] at hms
        obtain ⟨r, s'⟩ := ms
        cases r with
        | error e =>
          exact ⟨hms.1.trans (ensure_block_meta_headers t hdr.parent parent_hdr),
            hms.2.trans (ensure_block_meta_blocks t hdr.parent parent_hdr)⟩
        | ok tc =>
          dsimp only
          have hq := connectQueue_hb_frame fuel [id] s'
          generalize hc : connect_descendants_from s' fuel id = cq
          have hq2 : cq.2.store.headers = s'.store.headers ∧
              cq.2.store.blocks = s'.store.blocks := by rw [← hc]; exact hq
          obtain ⟨r2, s''⟩ := cq
          cases r2 with
          | error e2 =>
            exact ⟨(hq2.1.trans hms.1).trans (ensure_block_meta_headers t hdr.parent parent_hdr),
              (hq2.2.trans hms.2).trans (ensure_block_meta_blocks t hdr.parent parent_hdr)⟩
          | ok u =>
            exact ⟨(hq2.1.trans hms.1).trans (ensure_block_meta_headers t hdr.parent parent_hdr),
              (hq2.2.trans hms.2).trans (ensure_block_meta_blocks t hdr.parent parent_hdr)⟩

theorem connectPhase_result_hb {fuel : Nat} {t : ChainState} {hdr : BlockHeader}
    {id : Nat} {r : Except ChainErr (Nat × IngestOutcome)} {s₁ : ChainState}
    (h : connectPhase fuel t hdr id = (r, s₁)) :
    s₁.store.headers = t.store.headers ∧ s₁.store.blocks = t.store.blocks := by
  have hfr := connectPhase_hb_frame fuel t hdr id
  rw [h] at hfr
  exact hfr

theorem ite_state_headers (c : Prop) [Decidable c] (a b : ChainState) :
    (if c then a else b).store.headers = if c then a.store.headers else b.store.headers := by
  split <;> rfl

theorem ite_state_blocks (c : Prop) [Decidable c] (a b : ChainState) :
    (if c then a else b).store.blocks = if c then a.store.blocks else b.store.blocks := by
  split <;> rfl

/-- C4 (idempotence): if `ingest_block` succeeds on a block (with any
outcome), then re-ingesting the same block returns `AlreadyKnown` and
leaves the state — tip and every store byte — exactly as it was, for
any fuel.  In particular ingesting the same valid block twice yields
`AlreadyKnown` on the second call with no store mutation. -/
theorem C4_ingest_block_idempotent (C : HashCtx) (fuel₁ fuel₂ : Nat)
    (s : ChainState) (b : Block) (out : Nat × IngestOutcome) (s₁ : ChainState)
    (h : ingest_block C fuel₁ s b = (.ok out, s₁)) :
    ingest_block C fuel₂ s₁ b = (.ok (C.headerId b.header, .alreadyKnown), s₁) := by
  unfold ingest_block at h
  cases hv : verify_block_merkle C b with
  | error e' => rw [hv] at h; simp at h
  | ok u =>
    rw [hv] at h
    cases u
    dsimp only at h
    by_cases hp : pow_valid C b.header = true
    case neg => rw [if_pos hp] at h; simp at h
    case pos =>
    rw [if_neg (not_not_intro hp)] at h
    by_cases h0 : b.header.height = 0
    · rw [if_pos h0] at h
      by_cases hg : C.headerId b.header ≠ s.meta.genesis_id
      · rw [if_pos hg] at h; simp at h
      · rw [if_neg hg] at h
        injection h with h1 h2
        subst h2
        unfold ingest_block
        rw [hv]
        dsimp only
        rw [if_neg (not_not_intro hp), if_pos h0, if_neg hg]
    · rw [if_neg h0] at h
      by_cases hh : s.store.has_header (C.headerId b.header) = true
      · rw [if_pos hh] at h
        by_cases hb2 : s.store.has_block (C.headerId b.header) = true
        · rw [if_pos hb2] at h
          injection h with h1 h2
          subst h2
          unfold ingest_block
          rw [hv]
          dsimp only
          rw [if_neg (not_not_intro hp), if_neg h0, if_pos hh, if_pos hb2]
        · rw [if_neg hb2] at h
          cases hsh : s.store.headers (C.headerId b.header) with
          | none => rw [hsh] at h; simp at h
          | some stored_hdr =>
            rw [hsh] at h
            dsimp only at h
            by_cases hne : stored_hdr ≠ b.header
            · rw [if_pos hne] at h; simp at h
            · rw [if_neg hne] at h
              have hfr := connectPhase_result_hb h
              simp only [ite_state_headers, ite_state_blocks,
                Store.add_child_headers, Store.add_child_blocks,
                ensure_block_meta_headers, ensure_block_meta_blocks,
                Store.put_block_headers, ite_self] at hfr
              have hh₁ : s₁.store.has_header (C.headerId b.header) = true := by
                unfold Store.has_header
                rw [hfr.1, hsh]
                rfl
              have hb₁ : s₁.store.has_block (C.headerId b.header) = true := by
                unfold Store.has_block
                rw [hfr.2]
                simp [Store.put_block]
              unfold ingest_block
              rw [hv]
              dsimp only
              rw [if_neg (not_not_intro hp), if_neg h0, if_pos hh₁, if_pos hb₁]
      · rw [if_neg hh] at h
        have hfr := connectPhase_result_hb h
        simp only [Store.add_child_headers, Store.add_child_blocks,
          Store.put_block_meta_headers, Store.put_block_meta_blocks,
          Store.put_block_headers] at hfr
        have hh₁ : s₁.store.has_header (C.headerId b.header) = true := by
          unfold Store.has_header
          rw [hfr.1]
          simp [Store.put_header]
        have hb₁ : s₁.store.has_block (C.headerId b.header) = true := by
          unfold Store.has_block
          rw [hfr.2]
          simp [Store.put_block]
        unfold ingest_block
        rw [hv]
        dsimp only
        rw [if_neg (not_not_intro hp), if_neg h0, if_pos hh₁, if_pos hb₁]

/-! ## Tip monotonicity -/

/-- One fork-choice step: the tip is unchanged, or replaced by a
strictly higher candidate, or by an equal-height candidate with a
lexicographically strictly smaller hash. -/
def TipAdvance (t t' : ChainTip) : Prop :=
  t' = t ∨ t.height < t'.height ∨ (t'.height = t.height ∧ t'.hash < t.hash)

theorem TipAdvance.rfl (t : ChainTip) : TipAdvance t t := Or.inl (Eq.refl t)

theorem TipAdvance.trans {a b c : ChainTip}
    (h1 : TipAdvance a b) (h2 : TipAdvance b c) : TipAdvance a c := by
  rcases h1 with h1 | h1 | ⟨e1, l1⟩ <;> rcases h2 with h2 | h2 | ⟨e2, l2⟩ <;>
    subst_vars <;>
    first
      | exact Or.inl (Eq.refl _)
      | (right; omega)

theorem TipAdvance.of_eq_left {t t' u : ChainTip}
    (h : TipAdvance t u) (he : t = t') : TipAdvance t' u := he ▸ h

theorem ite_state_tip (c : Prop) [Decidable c] (a b : ChainState) :
    (if c then a else b).tip = if c then a.tip else b.tip := by
  split <;> rfl

theorem maybe_set_tip_tip_advance (s : ChainState) (ch cht : Nat) :
    TipAdvance s.tip (maybe_set_tip s ch cht).2.tip := by
  unfold maybe_set_tip
  by_cases hb : ForkBetter s.tip ch cht
  · rw [if_pos ((tipBetter_iff s.tip ch cht).mpr hb)]
    dsimp only
    have hfr := reorg_canonical_frame
      { s with tip := ⟨cht, ch⟩, store := s.store.set_tip ⟨cht, ch⟩ } s.tip ⟨cht, ch⟩
    generalize hre : reorg_canonical
        { s with tip := ⟨cht, ch⟩, store := s.store.set_tip ⟨cht, ch⟩ } s.tip ⟨cht, ch⟩ = rc
    rw [hre] at hfr
    obtain ⟨r, s''⟩ := rc
    have htip : s''.tip = ⟨cht, ch⟩ := hfr.1
    rcases hb with hlt | ⟨heq, hhash⟩
    · cases r <;> exact Or.inr (Or.inl (by rw [htip]; exact hlt))
    · cases r <;> exact Or.inr (Or.inr (by rw [htip]; exact ⟨heq, hhash⟩))
  · rw [if_neg (fun hbt => hb ((tipBetter_iff s.tip ch cht).mp hbt))]
    exact TipAdvance.rfl s.tip

theorem try_connect_child_tip_advance (s : ChainState) (p c : Nat) :
    TipAdvance s.tip (try_connect_child s p c).2.tip := by
  unfold try_connect_child
  split
  · exact TipAdvance.rfl s.tip
  · cases hh : s.store.headers c with
    | none => exact TipAdvance.rfl s.tip
    | some child_hdr =>
      dsimp only
      split
      · exact TipAdvance.rfl s.tip
      · cases hp : s.store.headers p with
        | none => exact TipAdvance.rfl s.tip
        | some parent_hdr =>
          dsimp only
          split
          · exact Or.inl (by simp only [ensure_block_meta_tip])
          · have hms := maybe_set_tip_tip_advance
              (ensure_block_meta_from_header
                (ensure_block_meta_from_header s p parent_hdr).2 c child_hdr).2 c
              (ensure_block_meta_from_header
                (ensure_block_meta_from_header s p parent_hdr).2 c child_hdr).1.height
            have hetip : (ensure_block_meta_from_header
                (ensure_block_meta_from_header s p parent_hdr).2 c child_hdr).2.tip
                  = s.tip := by
              simp only [ensure_block_meta_tip]
            rw [hetip] at hms
            generalize hm : maybe_set_tip
              (ensure_block_meta_from_header
                (ensure_block_meta_from_header s p parent_hdr).2 c child_hdr).2 c
              (ensure_block_meta_from_header
                (ensure_block_meta_from_header s p parent_hdr).2 c child_hdr).1.height = ms
            rw [hm] at hms
            obtain ⟨r, s'⟩ := ms
            cases r with
            | ok u => exact hms
            | error e => exact hms

theorem connectChildren_tip_advance (p : Nat) :
    ∀ (cs : List Nat) (s : ChainState),
      TipAdvance s.tip (connectChildren s p cs).2.tip := by
  intro cs
  induction cs with
  | nil => intro s; exact TipAdvance.rfl s.tip
  | cons c rest ih =>
    intro s
    unfold connectChildren
    have htc := try_connect_child_tip_advance s p c
    generalize hm : try_connect_child s p c = tc
    rw [hm] at htc
    obtain ⟨r, s'⟩ := tc
    cases r with
    | error e => exact htc
    | ok connected =>
      dsimp only
      have hcc := ih s'
      generalize hc : connectChildren s' p rest = cc
      rw [hc] at hcc
      obtain ⟨r2, s''⟩ := cc
      cases r2 with
      | error e2 => exact htc.trans hcc
      | ok conns => exact htc.trans hcc

theorem connectQueue_tip_advance :
    ∀ (fuel : Nat) (q : List Nat) (s : ChainState),
      TipAdvance s.tip (connectQueue s fuel q).2.tip := by
  intro fuel
  induction fuel with
  | zero =>
    intro q s
    cases q with
    | nil => exact TipAdvance.rfl s.tip
    | cons p rest => exact TipAdvance.rfl s.tip
  | succ n ih =>
    intro q s
    cases q with
    | nil => exact TipAdvance.rfl s.tip
    | cons p rest =>
      unfold connectQueue
      have hcc := connectChildren_tip_advance p (s.store.children p) s
      generalize hc : connectChildren s p (s.store.children p) = cc
      rw [hc] at hcc
      obtain ⟨r, s'⟩ := cc
      cases r with
      | error e => exact hcc
      | ok connected => exact hcc.trans (ih (rest ++ connected) s')

theorem connectPhase_tip_advance (fuel : Nat) (t : ChainState) (hdr : BlockHeader) (id : Nat) :
    TipAdvance t.tip (connectPhase fuel t hdr id).2.tip := by
  unfold connectPhase
  split
  · exact TipAdvance.rfl t.tip
  · cases hph : t.store.headers hdr.parent with
    | none => exact TipAdvance.rfl t.tip
    | some parent_hdr =>
      dsimp only
      split
      · exact Or.inl (by simp only [ensure_block_meta_tip])
      · have hms := maybe_set_tip_tip_advance
          (ensure_block_meta_from_header t hdr.parent parent_hdr).2 id hdr.height
        rw [ensure_block_meta_tip] at hms
        generalize hm : maybe_set_tip
          (ensure_block_meta_from_header t hdr.parent parent_hdr).2 id hdr.height = ms
        rw [hm] at hms
        obtain ⟨r, s'⟩ := ms
        cases r with
        | error e => exact hms
        | ok tc =>
          dsimp only
          have hq := connectQueue_tip_advance fuel [id] s'
          generalize hc : connect_descendants_from s' fuel id = cq
          have hq2 : TipAdvance s'.tip cq.2.tip := by rw [← hc]; exact hq
          obtain ⟨r2, s''⟩ := cq
          cases r2 with
          | error e2 => exact hms.trans hq2
          | ok u => exact hms.trans hq2

theorem ingest_block_tip_advance (C : HashCtx) (fuel : Nat) (s : ChainState) (b : Block) :
    TipAdvance s.tip (ingest_block C fuel s b).2.tip := by
  unfold ingest_block
  dsimp only
  repeat' split
  all_goals
    first
      | exact TipAdvance.rfl s.tip
      | exact Or.inl (Eq.refl s.tip)
      | (refine TipAdvance.of_eq_left (connectPhase_tip_advance _ _ _ _) ?_
         simp only [ite_state_tip, ensure_block_meta_tip, ite_self])

/-- A call into the chain-state engine: a full block or a bare header. -/
inductive ChainOp where
  | block (b : Block)
  | header (h : BlockHeader)

/-- Run one engine call, keeping the state whether it succeeds or
fails (as a session loop does). -/
def chainStep (C : HashCtx) (fuel : Nat) (s : ChainState) : ChainOp → ChainState
  | .block b => (ingest_block C fuel s b).2
  | .header h => (ingest_header C s h).2

/-- Run a sequence of engine calls. -/
def runChain (C : HashCtx) (fuel : Nat) (s : ChainState) (ops : List ChainOp) : ChainState :=
  ops.foldl (chainStep C fuel) s

theorem chainStep_tip_advance (C : HashCtx) (fuel : Nat) (s : ChainState) (op : ChainOp) :
    TipAdvance s.tip (chainStep C fuel s op).tip := by
  cases op with
  | block b => exact ingest_block_tip_advance C fuel s b
  | header h => exact Or.inl (ingest_header_tip_frame C s h).1

/-- C10: across any sequence of `ingest_block` and `ingest_header`
calls, successful or failing, the tip only ever advances: it is
replaced only by a candidate of strictly greater height, or of equal
height and lexicographically strictly smaller hash; hence the tip
height never decreases and at a fixed height the tip hash only ever
gets smaller. -/
theorem C10_tip_monotone (C : HashCtx) (fuel : Nat) (s : ChainState) (ops : List ChainOp) :
    TipAdvance s.tip (runChain C fuel s ops).tip ∧
    s.tip.height ≤ (runChain C fuel s ops).tip.height ∧
    ((runChain C fuel s ops).tip.height = s.tip.height →
      (runChain C fuel s ops).tip.hash ≤ s.tip.hash) := by
  have main : ∀ (ops : List ChainOp) (s : ChainState),
      TipAdvance s.tip (runChain C fuel s ops).tip := by
    intro ops
    induction ops with
    | nil => intro s; exact TipAdvance.rfl s.tip
    | cons op rest ih =>
      intro s
      exact (chainStep_tip_advance C fuel s op).trans (ih (chainStep C fuel s op))
  have m := main ops s
  refine ⟨m, ?_, ?_⟩
  · rcases m with h | h | ⟨e, l⟩
    · rw [h]
    · omega
    · omega
  · intro heq
    rcases m with h | h | ⟨e, l⟩
    · rw [h]
    · omega
    · omega

/-! ## Reorg frame bounds (C5) -/

/-- The new-tip branch is well linked for `n` steps: walking parents
from `x` at height `h`, every visited node has a stored block-meta
whose height decreases by exactly one. -/
def descChainAux (s : ChainState) : Nat → Nat → Nat → Bool
  | 0, x, h =>
      match s.store.bmeta x with
      | some m => m.height = h
      | none => false
  | n + 1, x, h =>
      match s.store.bmeta x with
      | some m => m.height = h && descChainAux s n m.parent (h - 1)
      | none => false

/-- Walking parents from `x` at height `h` reaches height `stop` with
metas present and heights decreasing by one at each step. -/
def descChain (s : ChainState) (x h stop : Nat) : Bool :=
  descChainAux s (h - stop) x h

theorem collectPath_of_descChain (s : ChainState) (stop : Nat) :
    ∀ (n x h : Nat), descChainAux s n x h = true → h = stop + n →
      ∀ fuel, n + 1 ≤ fuel →
        ∃ path, collectPath s stop x fuel = .ok path ∧
          ∀ pr ∈ path, stop < pr.1 ∧ pr.1 ≤ h := by
  intro n
  induction n with
  | zero =>
    intro x h hd hh fuel hf
    cases fuel with
    | zero => omega
    | succ f =>
      unfold descChainAux at hd
      cases hm : s.store.bmeta x with
      | none => rw [hm] at hd; cases hd
      | some m =>
        rw [hm] at hd
        have hmh : m.height = h := by simpa using hd
        refine ⟨[], ?_, by intro pr hpr; cases hpr⟩
        unfold collectPath
        have hmm : must_block_meta s x = .ok m := by
          unfold must_block_meta; rw [hm]
        rw [hmm]
        dsimp only
        rw [if_pos (by omega)]
  | succ n ih =>
    intro x h hd hh fuel hf
    cases fuel with
    | zero => omega
    | succ f =>
      unfold descChainAux at hd
      cases hm : s.store.bmeta x with
      | none => rw [hm] at hd; cases hd
      | some m =>
        rw [hm] at hd
        rw [Bool.and_eq_true] at hd
        have hmh : m.height = h := by simpa using hd.1
        obtain ⟨path', hcp, hbd⟩ :=
          ih m.parent (h - 1) hd.2 (by omega) f (by omega)
        refine ⟨(m.height, x) :: path', ?_, ?_⟩
        · unfold collectPath
          have hmm : must_block_meta s x = .ok m := by
            unfold must_block_meta; rw [hm]
          rw [hmm]
          dsimp only
          rw [if_neg (by omega), hcp]
        · intro pr hpr
          rcases List.mem_cons.mp hpr with hpr | hpr
          · subst hpr; constructor <;> omega
          · have := hbd pr hpr
            constructor <;> omega

theorem foldl_set_canon_nmem (h : Nat) :
    ∀ (path : List (Nat × Nat)) (st : Store), (∀ pr ∈ path, pr.1 ≠ h) →
      (path.foldl (fun st p => st.set_canon_hash p.1 p.2) st).canon h = st.canon h := by
  intro path
  induction path with
  | nil => intro st _; rfl
  | cons p t ih =>
    intro st hne
    rw [List.foldl_cons, ih _ (fun pr hpr => hne pr (List.mem_cons_of_mem p hpr))]
    unfold Store.set_canon_hash
    dsimp only
    rw [if_neg (fun he => hne p (List.mem_cons_self p t) he.symm)]

/-- C5: when the fork-point search of `reorg_canonical` finds ancestor
height `aH` and the new-tip branch is well linked down to `aH`, the
reorg succeeds and overwrites `canon` entries only at heights in
`(aH, new_tip.height]`: every canonical entry at height `≤ aH` (and
above the new tip) is unchanged, and headers, blocks, block-metas,
children index and both tip records are untouched — only the
height→hash index moves. -/
theorem C5_reorg_canonical_bounds (s : ChainState) (old_tip new_tip : ChainTip) (aH : Nat)
    (hf : findForkHeight s old_tip new_tip = .ok aH)
    (hd : descChain s new_tip.hash new_tip.height aH = true)
    (hle : aH ≤ new_tip.height) :
    (reorg_canonical s old_tip new_tip).1 = .ok () ∧
    (∀ h, h ≤ aH →
      (reorg_canonical s old_tip new_tip).2.store.canon h = s.store.canon h) ∧
    (∀ h, new_tip.height < h →
      (reorg_canonical s old_tip new_tip).2.store.canon h = s.store.canon h) ∧
    (reorg_canonical s old_tip new_tip).2.store.headers = s.store.headers ∧
    (reorg_canonical s old_tip new_tip).2.store.blocks = s.store.blocks ∧
    (reorg_canonical s old_tip new_tip).2.store.bmeta = s.store.bmeta ∧
    (reorg_canonical s old_tip new_tip).2.store.children = s.store.children ∧
    (reorg_canonical s old_tip new_tip).2.tip = s.tip ∧
    (reorg_canonical s old_tip new_tip).2.store.tip = s.store.tip := by
  obtain ⟨path, hcp, hbd⟩ :=
    collectPath_of_descChain s aH (new_tip.height - aH) new_tip.hash new_tip.height
      hd (by omega) (new_tip.height + 2) (by omega)
  unfold reorg_canonical
  rw [hf]
  dsimp only
  rw [hcp]
  dsimp only
  refine ⟨rfl, ?_, ?_, foldl_set_canon_headers path s.store,
    foldl_set_canon_blocks path s.store, foldl_set_canon_bmeta path s.store,
    foldl_set_canon_children path s.store, rfl, foldl_set_canon_tip path s.store⟩
  · intro h hh
    exact foldl_set_canon_nmem h path s.store
      (fun pr hpr => by have := hbd pr hpr; omega)
  · intro h hh
    exact foldl_set_canon_nmem h path s.store
      (fun pr hpr => by have := hbd pr hpr; omega)

/-! ## Concrete instances for counterexamples and witnesses

A table-based hash context: distinct headers used in the scenarios get
distinct ids (as a collision-free hash would give them). -/

/-- Hash context assigning ids by nonce, as a lookup table. -/
def ctxT : HashCtx :=
  { headerId := fun h =>
      if h.nonce = 0 then 50
      else if h.nonce = 1 then 21
      else if h.nonce = 2 then 22
      else if h.nonce = 3 then 23
      else if h.nonce = 4 then 24
      else if h.nonce = 5 then 25
      else if h.nonce = 11 then 11
      else if h.nonce = 12 then 12
      else if h.nonce = 13 then 13
      else 99
    txIdFromPayload := fun _ => 0
    merkleParentHash := fun _ _ => 0 }

/-- A genesis header (difficulty 0, empty merkle root); `ctxT` gives it
id 50. -/
def genHdr : BlockHeader := ⟨0, 0, 0, 0, 0, 0⟩

/-- An empty block at the given position (difficulty 0, merkle root of
the empty transaction list). -/
def mkB (parent height nonce : Nat) : Block := ⟨⟨parent, height, 0, nonce, 0, 0⟩, []⟩

/-- Chain-B blocks: a straight chain of five on top of genesis
(ids 21, 22, 23, 24, 25). -/
def bChain : List Block := [mkB 50 1 1, mkB 21 2 2, mkB 22 3 3, mkB 23 4 4, mkB 24 5 5]

/-- Chain-D blocks: a competing chain of three on top of genesis
(ids 11, 12, 13 — lexicographically smaller than chain B's). -/
def dChain : List Block := [mkB 50 1 11, mkB 11 2 12, mkB 12 3 13]

/-- The freshly initialised state over `ctxT`'s genesis. -/
def st0 : ChainState := genesisState ctxT genHdr 1 0

/-- Ingest a list of blocks left to right, keeping the state of every
call (also of failing ones, exactly as a session loop would). -/
def runBlocks (C : HashCtx) (fuel : Nat) (s : ChainState) (bs : List Block) : ChainState :=
  bs.foldl (fun s b => (ingest_block C fuel s b).2) s

/-- Arrival order 1: chain B up to height 3, then D2 and D3 (D3 wins
the height-3 tie-break and the reorg aborts on the missing `D1` meta),
then B5 before its parent B4 (whose connect pipeline aborts the same
way, leaving B5 orphaned forever), then D1. -/
def order1 : List Block :=
  [mkB 50 1 1, mkB 21 2 2, mkB 22 3 3, mkB 11 2 12, mkB 12 3 13,
   mkB 24 5 5, mkB 23 4 4, mkB 50 1 11]

/-- Arrival order 2: the same eight blocks, parents first. -/
def order2 : List Block :=
  [mkB 50 1 1, mkB 21 2 2, mkB 22 3 3, mkB 23 4 4, mkB 24 5 5,
   mkB 50 1 11, mkB 11 2 12, mkB 12 3 13]

/-- Every block of the scenario is a valid block extending the common
genesis: merkle-consistent, PoW-valid, and at height parent + 1 for a
parent that is either the genesis or another block of the set. -/
def validExtensionOf (C : HashCtx) (gid : Nat) (pool : List Block) (b : Block) : Bool :=
  (match verify_block_merkle C b with | .ok _ => true | .error _ => false) &&
  pow_valid C b.header &&
  decide (0 < b.header.height) &&
  (if b.header.parent = gid then b.header.height = 1
   else pool.any (fun p =>
     C.headerId p.header = b.header.parent && b.header.height = p.header.height + 1))

/-- C2 as stated is false: ingesting the block with parent = genesis
but height 2 (under difficulty 0, empty transactions) fails with
`HeightNotParentPlusOne`, yet the failing call has newly persisted the
block's header, body, block-meta, and children-index entry. -/
theorem C2_height_error_persists_counterexample :
    (ingest_block ctxT 10 st0 (mkB 50 2 1)).1 =
      .error (.heightNotParentPlusOne 0 2) ∧
    st0.store.headers 21 = none ∧
    st0.store.blocks 21 = none ∧
    st0.store.bmeta 21 = none ∧
    st0.store.children 50 = [] ∧
    (ingest_block ctxT 10 st0 (mkB 50 2 1)).2.store.headers 21 = some (mkB 50 2 1).header ∧
    (ingest_block ctxT 10 st0 (mkB 50 2 1)).2.store.blocks 21 = some (mkB 50 2 1) ∧
    (ingest_block ctxT 10 st0 (mkB 50 2 1)).2.store.bmeta 21 = some ⟨50, 2⟩ ∧
    (ingest_block ctxT 10 st0 (mkB 50 2 1)).2.store.children 50 = [21] := by
  decide

/-- A merkle-consistent block whose PoW is invalid (it needs 300
leading zero bits). -/
def badPowBlock : Block := ⟨⟨50, 1, 0, 7, 0, 300⟩, []⟩

/-- Witness for the amended C2: an invalid-PoW ingest leaves the state
unchanged. -/
theorem C2_ingest_block_prevalidation_frame_witness :
    (ingest_block ctxT 10 st0 badPowBlock).2 = st0 :=
  C2_ingest_block_prevalidation_frame ctxT 10 st0 badPowBlock .invalidPow
    (by decide) (by decide)

/-- C3 (fork-choice determinism) fails on the code: the same
ancestor-closed set of eight valid blocks over the common genesis,
ingested in two different orders with every call completed (and every
block stored in both runs), leaves final tip `(4, 24)` in one order
and `(5, 25)` in the other.  The mechanism: `maybe_set_tip` persists
the tip before `reorg_canonical` validates the branch, and the
resulting `MissingBlockMeta` error aborts `connect_descendants_from`,
so block 25 (B5), stored before its parent 24 (B4) arrived, is never
connected in order 1. -/
theorem C3_fork_choice_order_dependence :
    order1.Perm order2 ∧
    (order1.map (fun b => ctxT.headerId b.header)).Nodup ∧
    ¬ (order1.map (fun b => ctxT.headerId b.header)).contains (ctxT.headerId genHdr) ∧
    order1.all (validExtensionOf ctxT (ctxT.headerId genHdr) order1) = true ∧
    order1.all (fun b => (runBlocks ctxT 100 st0 order1).store.has_block
      (ctxT.headerId b.header)) = true ∧
    order2.all (fun b => (runBlocks ctxT 100 st0 order2).store.has_block
      (ctxT.headerId b.header)) = true ∧
    (runBlocks ctxT 100 st0 order1).tip = ⟨4, 24⟩ ∧
    (runBlocks ctxT 100 st0 order2).tip = ⟨5, 25⟩ ∧
    (runBlocks ctxT 100 st0 order1).tip ≠ (runBlocks ctxT 100 st0 order2).tip := by
  decide

/-- Witness for C4: ingesting block 21 on the fresh genesis state
succeeds as `NewTip`; re-ingesting it yields `AlreadyKnown` with the
state untouched. -/
theorem C4_ingest_block_idempotent_witness :
    ingest_block ctxT 10 (ingest_block ctxT 10 st0 (mkB 50 1 1)).2 (mkB 50 1 1) =
      (.ok (21, .alreadyKnown), (ingest_block ctxT 10 st0 (mkB 50 1 1)).2) :=
  C4_ingest_block_idempotent ctxT 10 10 st0 (mkB 50 1 1)
    (21, .newTip) (ingest_block ctxT 10 st0 (mkB 50 1 1)).2
    (Prod.ext (by decide) rfl)

/-- A state holding genesis (id 50), blocks 21 (height 1) and 22
(height 2) on one branch and block 11 (height 1) on a sibling branch. -/
def c5State : ChainState := runBlocks ctxT 100 st0 [mkB 50 1 1, mkB 21 2 2, mkB 50 1 11]

/-- Witness for C5: reorging from old tip `(1, 11)` to new tip
`(2, 22)` (fork point at genesis, height 0) succeeds, leaves
`canon[0]` and `canon[3]` untouched, and moves neither headers nor the
tip record. -/
theorem C5_reorg_canonical_bounds_witness :
    (reorg_canonical c5State ⟨1, 11⟩ ⟨2, 22⟩).1 = .ok () ∧
    (reorg_canonical c5State ⟨1, 11⟩ ⟨2, 22⟩).2.store.canon 0 = c5State.store.canon 0 ∧
    (reorg_canonical c5State ⟨1, 11⟩ ⟨2, 22⟩).2.store.canon 3 = c5State.store.canon 3 ∧
    (reorg_canonical c5State ⟨1, 11⟩ ⟨2, 22⟩).2.store.headers = c5State.store.headers ∧
    (reorg_canonical c5State ⟨1, 11⟩ ⟨2, 22⟩).2.tip = c5State.tip := by
  have T := C5_reorg_canonical_bounds c5State ⟨1, 11⟩ ⟨2, 22⟩ 0
    (by decide) (by decide) (by decide)
  exact ⟨T.1, T.2.1 0 (by decide), T.2.2.1 3 (by decide), T.2.2.2.1,
    T.2.2.2.2.2.2.2.1⟩

end EggChain

namespace EggNet

theorem ban_penalty_score (m : PeerMachine) (r : String) :
    (m.ban r).penalty_score = m.penalty_score := by
  unfold PeerMachine.ban; split <;> rfl

theorem ban_penalty_last_decay (m : PeerMachine) (r : String) :
    (m.ban r).penalty_last_decay = m.penalty_last_decay := by
  unfold PeerMachine.ban; split <;> rfl

theorem add_penalty_score_eq (m : PeerMachine) (now : Nat) (points : Int) (why : String)
    (hban : m.banned = none) :
    (m.add_penalty now points why).penalty_score =
      satAddI32 (m.apply_decay now).penalty_score points := by
  unfold PeerMachine.add_penalty
  rw [if_neg (by simp [PeerMachine.is_banned, hban])]
  dsimp only
  split
  · rw [ban_penalty_score]
  · rfl

/-- C7: on a non-banned machine, `add_penalty` first applies lazy
decay, then adds the points.  If at least 10 seconds have elapsed
since `penalty_last_decay`, the decay subtracts
`⌊elapsed / 10 s⌋ × 10` points from the score (clamped at 0) and
advances `penalty_last_decay` to `now`, and the penalty points are
added on top of the decayed score; if fewer than 10 seconds have
elapsed, no decay is applied. -/
theorem C7_penalty_lazy_decay (m : PeerMachine) (now : Nat) (points : Int) (why : String)
    (hban : m.banned = none)
    (hord : m.penalty_last_decay ≤ now)
    (hcap : (now - m.penalty_last_decay) / 1000000000 / 10 < 2147483648)
    (hsc : m.penalty_score ≤ 2147483647) :
    (10 ≤ (now - m.penalty_last_decay) / 1000000000 →
      (m.apply_decay now).penalty_score =
        max (m.penalty_score -
          10 * (((now - m.penalty_last_decay) / 1000000000 / 10 : Nat) : Int)) 0 ∧
      (m.apply_decay now).penalty_last_decay = now ∧
      (m.add_penalty now points why).penalty_score =
        satAddI32 (m.apply_decay now).penalty_score points) ∧
    ((now - m.penalty_last_decay) / 1000000000 < 10 →
      m.apply_decay now = m ∧
      (m.add_penalty now points why).penalty_score =
        satAddI32 m.penalty_score points) := by
  have hnlt : ¬ now < m.penalty_last_decay := by omega
  constructor
  · intro h10
    have hdecay : (m.apply_decay now).penalty_score =
        max (m.penalty_score -
          10 * (((now - m.penalty_last_decay) / 1000000000 / 10 : Nat) : Int)) 0 ∧
        (m.apply_decay now).penalty_last_decay = now := by
      unfold PeerMachine.apply_decay
      rw [if_neg hnlt]
      simp only [PENALTY_DECAY_EVERY_SECS, PENALTY_DECAY_STEP]
      rw [if_neg (by omega : ¬ (now - m.penalty_last_decay) / 1000000000 / 10 = 0)]
      dsimp only
      constructor
      · have hcast : u64AsI32 ((now - m.penalty_last_decay) / 1000000000 / 10) =
            (((now - m.penalty_last_decay) / 1000000000 / 10 : Nat) : Int) := by
          unfold u64AsI32
          dsimp only
          rw [Nat.mod_eq_of_lt (by omega)]
          rw [if_pos (by exact_mod_cast hcap)]
        rw [hcast]
        unfold satMulI32 i32Min i32Max
        omega
      · rfl
    exact ⟨hdecay.1, hdecay.2, add_penalty_score_eq m now points why hban⟩
  · intro hlt
    have hdecay : m.apply_decay now = m := by
      unfold PeerMachine.apply_decay
      rw [if_neg hnlt]
      dsimp only
      rw [if_pos (by unfold PENALTY_DECAY_EVERY_SECS; omega)]
    refine ⟨hdecay, ?_⟩
    rw [add_penalty_score_eq m now points why hban, hdecay]

theorem ban_fields (m : PeerMachine) (r : String) :
    (m.ban r).inflight_blocks = m.inflight_blocks ∧
    (m.ban r).known_header_ids = m.known_header_ids ∧
    (m.ban r).penalty_score = m.penalty_score ∧
    (m.ban r).penalty_last_decay = m.penalty_last_decay := by
  unfold PeerMachine.ban; split <;> exact ⟨rfl, rfl, rfl, rfl⟩

theorem apply_decay_fields (m : PeerMachine) (now : Nat) :
    (m.apply_decay now).banned = m.banned ∧
    (m.apply_decay now).inflight_blocks = m.inflight_blocks ∧
    (m.apply_decay now).known_header_ids = m.known_header_ids ∧
    (m.apply_decay now).hs = m.hs := by
  unfold PeerMachine.apply_decay
  split
  · exact ⟨rfl, rfl, rfl, rfl⟩
  · dsimp only
    split <;> exact ⟨rfl, rfl, rfl, rfl⟩

/-- A second lazy decay at the same instant is the identity. -/
theorem apply_decay_self (m : PeerMachine) (now : Nat) :
    (m.apply_decay now).apply_decay now = m.apply_decay now := by
  by_cases hnlt : now < m.penalty_last_decay
  · have h1 : m.apply_decay now = { m with penalty_last_decay := now } := by
      unfold PeerMachine.apply_decay
      rw [if_pos hnlt]
    rw [h1]
    unfold PeerMachine.apply_decay
    rw [if_neg (by simp)]
    dsimp only
    rw [if_pos (by simp)]
  · by_cases hs0 : (now - m.penalty_last_decay) / 1000000000 / PENALTY_DECAY_EVERY_SECS = 0
    · have h1 : m.apply_decay now = m := by
        unfold PeerMachine.apply_decay
        rw [if_neg hnlt]
        dsimp only
        rw [if_pos hs0]
      rw [h1, h1]
    · have h1 : m.apply_decay now = { m with
          penalty_score := max (m.penalty_score -
            satMulI32 (u64AsI32 ((now - m.penalty_last_decay) / 1000000000 /
              PENALTY_DECAY_EVERY_SECS)) PENALTY_DECAY_STEP) 0
          penalty_last_decay := now } := by
        unfold PeerMachine.apply_decay
        rw [if_neg hnlt]
        dsimp only
        rw [if_neg hs0]
      rw [h1]
      unfold PeerMachine.apply_decay
      rw [if_neg (by simp)]
      dsimp only
      rw [if_pos (by simp)]

theorem add_penalty_inflight (m : PeerMachine) (now : Nat) (pts : Int) (why : String) :
    (m.add_penalty now pts why).inflight_blocks = m.inflight_blocks := by
  unfold PeerMachine.add_penalty
  split
  · rfl
  · dsimp only
    split
    · rw [(ban_fields _ _).1, (apply_decay_fields m now).2.1]
    · exact (apply_decay_fields m now).2.1

theorem add_penalty_last_decay (m : PeerMachine) (now : Nat) (pts : Int) (why : String)
    (hban : m.banned = none) :
    (m.add_penalty now pts why).penalty_last_decay =
      (m.apply_decay now).penalty_last_decay := by
  unfold PeerMachine.add_penalty
  rw [if_neg (by simp [PeerMachine.is_banned, hban])]
  dsimp only
  split
  · rw [ban_penalty_last_decay]
  · rfl

theorem add_penalty_banned_lt (m : PeerMachine) (now : Nat) (pts : Int) (why : String)
    (hban : m.banned = none)
    (hlt : satAddI32 (m.apply_decay now).penalty_score pts < 100) :
    (m.add_penalty now pts why).banned = none := by
  unfold PeerMachine.add_penalty
  rw [if_neg (by simp [PeerMachine.is_banned, hban])]
  dsimp only
  simp only [PENALTY_BAN_THRESHOLD]
  rw [if_neg (by exact not_le.mpr hlt)]
  rw [(apply_decay_fields m now).1, hban]

theorem add_penalty_banned_ge (m : PeerMachine) (now : Nat) (pts : Int) (why : String)
    (hban : m.banned = none)
    (hge : 100 ≤ satAddI32 (m.apply_decay now).penalty_score pts) :
    (m.add_penalty now pts why).banned =
      some ("penalty threshold exceeded: score=" ++
        toString (satAddI32 (m.apply_decay now).penalty_score pts) ++
        " reason=" ++ why) := by
  unfold PeerMachine.add_penalty
  rw [if_neg (by simp [PeerMachine.is_banned, hban])]
  dsimp only
  simp only [PENALTY_BAN_THRESHOLD]
  rw [if_pos hge]
  unfold PeerMachine.ban
  rw [if_pos (by dsimp only; rw [(apply_decay_fields m now).1, hban]; rfl)]

/-- The uniform decay formula: the decayed score is the old score
minus `10 × ⌊elapsed / 10 s⌋`, clamped at 0, and either the decay was
a no-op (zero steps) or `penalty_last_decay` advanced to `now`. -/
theorem apply_decay_score_formula (m : PeerMachine) (now : Nat)
    (hord : m.penalty_last_decay ≤ now)
    (hcap : (now - m.penalty_last_decay) / 1000000000 / 10 < 2147483648)
    (hpos : 0 ≤ m.penalty_score) (hsc : m.penalty_score ≤ 2147483647) :
    (m.apply_decay now).penalty_score =
      max (m.penalty_score -
        10 * (((now - m.penalty_last_decay) / 1000000000 / 10 : Nat) : Int)) 0 ∧
    (((m.apply_decay now).penalty_last_decay = m.penalty_last_decay ∧
        now - m.penalty_last_decay < 10000000000) ∨
      (m.apply_decay now).penalty_last_decay = now) := by
  have hnlt : ¬ now < m.penalty_last_decay := by omega
  unfold PeerMachine.apply_decay
  rw [if_neg hnlt]
  simp only [PENALTY_DECAY_EVERY_SECS, PENALTY_DECAY_STEP]
  by_cases hs0 : (now - m.penalty_last_decay) / 1000000000 / 10 = 0
  · rw [if_pos hs0]
    constructor
    · rw [hs0]
      push_cast
      omega
    · left
      exact ⟨rfl, by omega⟩
  · rw [if_neg hs0]
    dsimp only
    constructor
    · have hcast : u64AsI32 ((now - m.penalty_last_decay) / 1000000000 / 10) =
          (((now - m.penalty_last_decay) / 1000000000 / 10 : Nat) : Int) := by
        unfold u64AsI32
        dsimp only
        rw [Nat.mod_eq_of_lt (by omega)]
        rw [if_pos (by exact_mod_cast hcap)]
      rw [hcast]
      unfold satMulI32 i32Min i32Max
      omega
    · right; rfl

/-- An unsolicited block reply (`BlockFound` or `BlockNotFound` for an
id that is not inflight) on a non-banned machine emits nothing and
applies exactly the `UNSOLICITED_REPLY` penalty after the entry lazy
decay. -/
theorem unsolicited_reply_step (C : EggChain.HashCtx) (m : PeerMachine) (id : Nat)
    (blk : EggChain.Block) (now : Nat) (msg : Message)
    (hmsg : msg = Message.blockFound id blk ∨ msg = Message.blockNotFound id)
    (hban : m.banned = none)
    (hinfl : m.inflight_blocks.contains id = false) :
    PeerMachine.on_message_at C m msg now =
      ([], (m.apply_decay now).add_penalty now PENALTY_UNSOLICITED_REPLY
        "unsolicited block reply") := by
  have hinfl2 : (m.apply_decay now).inflight_blocks.contains id = false := by
    rw [(apply_decay_fields m now).2.1]; exact hinfl
  rcases hmsg with rfl | rfl <;>
  · unfold PeerMachine.on_message_at
    rw [if_neg (by simp [PeerMachine.is_banned, hban])]
    dsimp only
    unfold PeerMachine.hardening_on_block_reply
    rw [if_neg (by rw [hinfl2]; simp)]

/-- A concrete peer machine with penalty score 55 and a decay
timestamp of 0, used to exercise the lazy-decay formula. -/
def c7M : PeerMachine :=
  { role := Role.outbound
    hs := HandshakeState.ready
    localInfo := ⟨1, 9, ⟨0, 9⟩, 7, "egg"⟩
    remote := none
    sync_enabled := false
    sync_cursor_start := 9
    sync_batch_max := 2000
    banned := none
    known_header_ids := [9]
    inflight_blocks := []
    notfound_by_id := []
    notfound_distinct_ids := []
    penalty_score := 55
    penalty_last_decay := 0 }

theorem C7_penalty_lazy_decay_witness :
    (c7M.apply_decay 61000000000).penalty_score =
      max (c7M.penalty_score -
        10 * (((61000000000 - c7M.penalty_last_decay) / 1000000000 / 10 : Nat) : Int)) 0 ∧
    (c7M.apply_decay 61000000000).penalty_last_decay = 61000000000 ∧
    (c7M.add_penalty 61000000000 55 "unsolicited block reply").penalty_score =
      satAddI32 (c7M.apply_decay 61000000000).penalty_score 55 :=
  (C7_penalty_lazy_decay c7M 61000000000 55 "unsolicited block reply"
    rfl (by decide) (by decide) (by decide)).1 (by decide)

/-- `add_penalty` begins with the same lazy decay, so pre-decaying a
non-banned machine at the same instant changes nothing. -/
theorem add_penalty_decay_collapse (m : PeerMachine) (now : Nat) (pts : Int)
    (why : String) (hban : m.banned = none) :
    (m.apply_decay now).add_penalty now pts why = m.add_penalty now pts why := by
  unfold PeerMachine.add_penalty
  have hb1 : (m.apply_decay now).is_banned = false := by
    simp [PeerMachine.is_banned, (apply_decay_fields m now).1, hban]
  have hb2 : m.is_banned = false := by simp [PeerMachine.is_banned, hban]
  rw [hb1, hb2]
  simp only [Bool.false_eq_true, if_false]
  rw [apply_decay_self m now]

theorem threshold_split (t r : String) :
    "penalty threshold exceeded: score=" ++ t ++ " reason=" ++ r =
      "penalty " ++ "threshold" ++ (" exceeded: score=" ++ t ++ " reason=" ++ r) := by
  have h : "penalty " ++ "threshold" ++ " exceeded: score=" =
      "penalty threshold exceeded: score=" := rfl
  simp only [← String.append_assoc]
  rw [h]

/-- C8: two unsolicited block replies inside the decay window.  The
first adds exactly `UNSOLICITED_REPLY` (55) points to a fresh score
and leaves the machine unbanned; the second, arriving less than 10
seconds later, pushes the score to at least 100 and bans the machine
with a reason containing "threshold". -/
theorem C8_unsolicited_reply_ban (C : EggChain.HashCtx) (m : PeerMachine)
    (id : Nat) (blk₁ blk₂ : EggChain.Block) (msg₁ msg₂ : Message) (now₁ now₂ : Nat)
    (hready : m.hs = HandshakeState.ready)
    (hban : m.banned = none)
    (hscore : m.penalty_score = 0)
    (hinfl : m.inflight_blocks.contains id = false)
    (hord : m.penalty_last_decay ≤ now₁)
    (h12 : now₁ ≤ now₂)
    (hwin : now₂ - now₁ < 10000000000)
    (hcap : now₁ - m.penalty_last_decay < 21474836480000000000)
    (hmsg₁ : msg₁ = Message.blockFound id blk₁ ∨ msg₁ = Message.blockNotFound id)
    (hmsg₂ : msg₂ = Message.blockFound id blk₂ ∨ msg₂ = Message.blockNotFound id) :
    (PeerMachine.on_message_at C m msg₁ now₁).1 = [] ∧
    (PeerMachine.on_message_at C m msg₁ now₁).2.penalty_score = 55 ∧
    (PeerMachine.on_message_at C m msg₁ now₁).2.banned = none ∧
    (PeerMachine.on_message_at C (PeerMachine.on_message_at C m msg₁ now₁).2
      msg₂ now₂).1 = [] ∧
    100 ≤ (PeerMachine.on_message_at C (PeerMachine.on_message_at C m msg₁ now₁).2
      msg₂ now₂).2.penalty_score ∧
    (PeerMachine.on_message_at C (PeerMachine.on_message_at C m msg₁ now₁).2
      msg₂ now₂).2.is_banned = true ∧
    ∃ pre post,
      (PeerMachine.on_message_at C (PeerMachine.on_message_at C m msg₁ now₁).2
        msg₂ now₂).2.banned = some (pre ++ "threshold" ++ post) := by
  have h1 : PeerMachine.on_message_at C m msg₁ now₁ =
      ([], m.add_penalty now₁ PENALTY_UNSOLICITED_REPLY "unsolicited block reply") := by
    rw [unsolicited_reply_step C m id blk₁ now₁ msg₁ hmsg₁ hban hinfl,
        add_penalty_decay_collapse m now₁ _ _ hban]
  have hform := apply_decay_score_formula m now₁ hord (by omega) (by omega) (by omega)
  have hs0 : (m.apply_decay now₁).penalty_score = 0 := by
    rw [hform.1, hscore]
    omega
  have hs1 : (m.add_penalty now₁ PENALTY_UNSOLICITED_REPLY
      "unsolicited block reply").penalty_score = 55 := by
    rw [add_penalty_score_eq m now₁ _ _ hban, hs0]
    decide
  have hb1 : (m.add_penalty now₁ PENALTY_UNSOLICITED_REPLY
      "unsolicited block reply").banned = none := by
    apply add_penalty_banned_lt m now₁ _ _ hban
    rw [hs0]
    decide
  have hi1 : (m.add_penalty now₁ PENALTY_UNSOLICITED_REPLY
      "unsolicited block reply").inflight_blocks.contains id = false := by
    rw [add_penalty_inflight]
    exact hinfl
  have hl1 : (m.add_penalty now₁ PENALTY_UNSOLICITED_REPLY
      "unsolicited block reply").penalty_last_decay =
      (m.apply_decay now₁).penalty_last_decay :=
    add_penalty_last_decay m now₁ _ _ hban
  have hord2 : (m.add_penalty now₁ PENALTY_UNSOLICITED_REPLY
      "unsolicited block reply").penalty_last_decay ≤ now₂ := by
    rw [hl1]
    rcases hform.2 with ⟨heq, -⟩ | heq <;> rw [heq] <;> omega
  have hk2 : (now₂ - (m.add_penalty now₁ PENALTY_UNSOLICITED_REPLY
      "unsolicited block reply").penalty_last_decay) / 1000000000 / 10 ≤ 1 := by
    rw [hl1]
    rcases hform.2 with ⟨heq, hlt⟩ | heq <;> rw [heq] <;> omega
  have hform2 := apply_decay_score_formula
    (m.add_penalty now₁ PENALTY_UNSOLICITED_REPLY "unsolicited block reply") now₂
    hord2 (by omega) (by rw [hs1]; decide) (by rw [hs1]; decide)
  have hs2bounds : 45 ≤ ((m.add_penalty now₁ PENALTY_UNSOLICITED_REPLY
        "unsolicited block reply").apply_decay now₂).penalty_score ∧
      ((m.add_penalty now₁ PENALTY_UNSOLICITED_REPLY
        "unsolicited block reply").apply_decay now₂).penalty_score ≤ 55 := by
    rw [hform2.1, hs1]
    omega
  have h2 : PeerMachine.on_message_at C (m.add_penalty now₁ PENALTY_UNSOLICITED_REPLY
      "unsolicited block reply") msg₂ now₂ =
      ([], (m.add_penalty now₁ PENALTY_UNSOLICITED_REPLY
        "unsolicited block reply").add_penalty now₂ PENALTY_UNSOLICITED_REPLY
        "unsolicited block reply") := by
    rw [unsolicited_reply_step C _ id blk₂ now₂ msg₂ hmsg₂ hb1 hi1,
        add_penalty_decay_collapse _ now₂ _ _ hb1]
  have hge : 100 ≤ satAddI32 ((m.add_penalty now₁ PENALTY_UNSOLICITED_REPLY
      "unsolicited block reply").apply_decay now₂).penalty_score
      PENALTY_UNSOLICITED_REPLY := by
    rcases hs2bounds with ⟨hA, hB⟩
    revert hA hB
    generalize ((m.add_penalty now₁ PENALTY_UNSOLICITED_REPLY
      "unsolicited block reply").apply_decay now₂).penalty_score = x
    intro hA hB
    unfold satAddI32 i32Min i32Max PENALTY_UNSOLICITED_REPLY
    omega
  have hs2 : 100 ≤ ((m.add_penalty now₁ PENALTY_UNSOLICITED_REPLY
      "unsolicited block reply").add_penalty now₂ PENALTY_UNSOLICITED_REPLY
      "unsolicited block reply").penalty_score := by
    rw [add_penalty_score_eq _ now₂ _ _ hb1]
    exact hge
  have hb2 := add_penalty_banned_ge
    (m.add_penalty now₁ PENALTY_UNSOLICITED_REPLY "unsolicited block reply") now₂
    PENALTY_UNSOLICITED_REPLY "unsolicited block reply" hb1 hge
  refine ⟨?_, ?_, ?_, ?_, ?_, ?_, ?_⟩
  · simp only [h1]
  · simp only [h1]
    exact hs1
  · simp only [h1]
    exact hb1
  · simp only [h1, h2]
  · simp only [h1, h2]
    exact hs2
  · simp only [h1, h2]
    simp [PeerMachine.is_banned, hb2]
  · simp only [h1, h2]
    refine ⟨"penalty ", " exceeded: score=" ++
      toString (satAddI32 ((m.add_penalty now₁ PENALTY_UNSOLICITED_REPLY
        "unsolicited block reply").apply_decay now₂).penalty_score
        PENALTY_UNSOLICITED_REPLY) ++ " reason=" ++ "unsolicited block reply", ?_⟩
    rw [hb2]
    exact congrArg some (threshold_split _ _)

/-- A concrete fresh, ready, unbanned peer machine with score 0. -/
def c8M : PeerMachine :=
  { role := Role.outbound
    hs := HandshakeState.ready
    localInfo := ⟨1, 9, ⟨0, 9⟩, 7, "egg"⟩
    remote := none
    sync_enabled := false
    sync_cursor_start := 9
    sync_batch_max := 2000
    banned := none
    known_header_ids := [9]
    inflight_blocks := []
    notfound_by_id := []
    notfound_distinct_ids := []
    penalty_score := 0
    penalty_last_decay := 0 }

def c8Blk : EggChain.Block := ⟨⟨0, 0, 0, 0, 0, 0⟩, []⟩

theorem C8_unsolicited_reply_ban_witness :
    (PeerMachine.on_message_at EggChain.ctxT c8M (Message.blockNotFound 5) 0).1 = [] ∧
    (PeerMachine.on_message_at EggChain.ctxT c8M
      (Message.blockNotFound 5) 0).2.penalty_score = 55 ∧
    (PeerMachine.on_message_at EggChain.ctxT c8M
      (Message.blockNotFound 5) 0).2.banned = none ∧
    (PeerMachine.on_message_at EggChain.ctxT (PeerMachine.on_message_at EggChain.ctxT
      c8M (Message.blockNotFound 5) 0).2 (Message.blockNotFound 5) 5000000000).1 = [] ∧
    100 ≤ (PeerMachine.on_message_at EggChain.ctxT (PeerMachine.on_message_at
      EggChain.ctxT c8M (Message.blockNotFound 5) 0).2
      (Message.blockNotFound 5) 5000000000).2.penalty_score ∧
    (PeerMachine.on_message_at EggChain.ctxT (PeerMachine.on_message_at EggChain.ctxT
      c8M (Message.blockNotFound 5) 0).2
      (Message.blockNotFound 5) 5000000000).2.is_banned = true ∧
    ∃ pre post,
      (PeerMachine.on_message_at EggChain.ctxT (PeerMachine.on_message_at
        EggChain.ctxT c8M (Message.blockNotFound 5) 0).2
        (Message.blockNotFound 5) 5000000000).2.banned =
        some (pre ++ "threshold" ++ post) :=
  C8_unsolicited_reply_ban EggChain.ctxT c8M 5 c8Blk c8Blk
    (Message.blockNotFound 5) (Message.blockNotFound 5) 0 5000000000
    rfl rfl rfl (by decide) (by decide) (by decide) (by decide) (by decide)
    (Or.inr rfl) (Or.inr rfl)

/-- A session event for a peer machine: an inbound message or an
I/O timeout, each carrying the clock reading at which it occurs. -/
inductive PeerEvent where
  | msg (msg : Message) (now : Nat)
  | timeout (now : Nat)

/-- One session event processed by the peer machine. -/
def peerStep (C : EggChain.HashCtx) (m : PeerMachine) : PeerEvent → List Message × PeerMachine
  | .msg msg now => PeerMachine.on_message_at C m msg now
  | .timeout now => ([], m.note_timeout_at now)

/-- A whole session: fold the events, collecting every emitted message. -/
def runPeer (C : EggChain.HashCtx) (m : PeerMachine) : List PeerEvent → List Message × PeerMachine
  | [] => ([], m)
  | e :: es =>
      let (out, m') := peerStep C m e
      let (out', m'') := runPeer C m' es
      (out ++ out', m'')

theorem on_message_at_banned (C : EggChain.HashCtx) (m : PeerMachine) (r : String)
    (msg : Message) (now : Nat) (hban : m.banned = some r) :
    PeerMachine.on_message_at C m msg now = ([], m) := by
  unfold PeerMachine.on_message_at
  rw [if_pos (by simp [PeerMachine.is_banned, hban])]

theorem add_penalty_banned_id (m : PeerMachine) (r : String) (now : Nat)
    (pts : Int) (why : String) (hban : m.banned = some r) :
    m.add_penalty now pts why = m := by
  unfold PeerMachine.add_penalty
  rw [if_pos (by simp [PeerMachine.is_banned, hban])]

theorem runPeer_banned (C : EggChain.HashCtx) (r : String) (evs : List PeerEvent) :
    ∀ m : PeerMachine, m.banned = some r → runPeer C m evs = ([], m) := by
  induction evs with
  | nil => intro m hban; rfl
  | cons e es ih =>
      intro m hban
      have hstep : peerStep C m e = ([], m) := by
        cases e with
        | msg msg now => exact on_message_at_banned C m r msg now hban
        | timeout now =>
            unfold peerStep PeerMachine.note_timeout_at
            dsimp only
            rw [add_penalty_banned_id m r now _ _ hban]
      unfold runPeer
      rw [hstep]
      dsimp only
      rw [ih m hban]
      rfl

/-- C9: bans are sticky for the session.  On a banned machine every
inbound message is ignored (`on_message_at` returns the empty list and
the machine unchanged), `start` emits nothing, decay and penalties
leave the ban in place, and across any whole session of further events
the machine emits nothing and stays banned with the original reason. -/
theorem C9_ban_sticky (C : EggChain.HashCtx) (m : PeerMachine) (r : String)
    (evs : List PeerEvent) (msg : Message) (now : Nat) (pts : Int) (why : String)
    (hban : m.banned = some r) :
    PeerMachine.on_message_at C m msg now = ([], m) ∧
    m.start = ([], m) ∧
    (m.apply_decay now).banned = some r ∧
    m.add_penalty now pts why = m ∧
    (runPeer C m evs).1 = [] ∧
    (runPeer C m evs).2.banned = some r := by
  have hrun := runPeer_banned C r evs m hban
  refine ⟨on_message_at_banned C m r msg now hban, ?_,
    by rw [(apply_decay_fields m now).1]; exact hban,
    add_penalty_banned_id m r now pts why hban,
    by rw [hrun], by rw [hrun]; exact hban⟩
  unfold PeerMachine.start
  rw [if_pos (by simp [PeerMachine.is_banned, hban])]

/-- A concrete banned peer machine. -/
def c9M : PeerMachine :=
  { role := Role.outbound
    hs := HandshakeState.ready
    localInfo := ⟨1, 9, ⟨0, 9⟩, 7, "egg"⟩
    remote := none
    sync_enabled := false
    sync_cursor_start := 9
    sync_batch_max := 2000
    banned := some "penalty threshold exceeded: score=110 reason=unsolicited block reply"
    known_header_ids := [9]
    inflight_blocks := []
    notfound_by_id := []
    notfound_distinct_ids := []
    penalty_score := 110
    penalty_last_decay := 0 }

def c9Evs : List PeerEvent :=
  [PeerEvent.timeout 1000,
   PeerEvent.msg (Message.ping 3) 2000,
   PeerEvent.msg (Message.blockNotFound 5) 3000]

theorem C9_ban_sticky_witness :
    PeerMachine.on_message_at EggChain.ctxT c9M (Message.ping 3) 1500 = ([], c9M) ∧
    c9M.start = ([], c9M) ∧
    (c9M.apply_decay 1500).banned =
      some "penalty threshold exceeded: score=110 reason=unsolicited block reply" ∧
    c9M.add_penalty 1500 55 "unsolicited block reply" = c9M ∧
    (runPeer EggChain.ctxT c9M c9Evs).1 = [] ∧
    (runPeer EggChain.ctxT c9M c9Evs).2.banned =
      some "penalty threshold exceeded: score=110 reason=unsolicited block reply" :=
  C9_ban_sticky EggChain.ctxT c9M
    "penalty threshold exceeded: score=110 reason=unsolicited block reply"
    c9Evs (Message.ping 3) 1500 55 "unsolicited block reply" rfl

end EggNet
